import Mathlib

/-!
Verification of the Redis-Streams video-generation worker
(`src/VideoGenerator_API/rust-worker/src/main.rs`).

The worker is shallowly embedded as pure Lean functions over an explicit
`World`:

* the broker's logical contents (string keys, hashes, sets) live in
  association lists inside `Store`;
* every Redis command issued over the worker's connection consumes one
  entry of a fault schedule (`faults : List Bool`); `true` means the
  command fails with a transport error, mirroring a `RedisError` in the
  source.  An exhausted schedule means every later command succeeds;
* the external Python child process is an oracle: each spawn consumes one
  `ChildWait` from `childq`, describing whether the child exited (with
  which status code, and which job-record fields it wrote through its own
  broker connection), timed out, or could not be awaited;
* observable actions (log lines, spawns, kills, sleeps, XTRIM commands)
  are recorded in an event trace.

Modelling notes (deliberate, documented abstractions):
* byte strings are modelled as `String`; the source's lossy UTF-8 decoding
  of well-formed bytes is the identity on this representation;
* TTLs (`EXPIRE`, `SET ... EX`) are not tracked: no claim depends on key
  expiry, only on whether the command succeeds;
* wall-clock time is the `nowMs` field; the child-runner poll loop with
  `Instant::now` is abstracted into the `ChildWait` outcome (exited before
  the timeout, or still running when the timeout elapsed);
* `u64` parsing (`str::parse`) is modelled on unbounded `Nat`
  (an optional leading plus sign, then at least one decimal digit);
  no claim depends on 64-bit overflow;
* `format!` of a number is modelled by `natToString`, a decimal renderer.
-/

/-! ## Constants from the source -/

def LAST_ID_KEY : String := "videogen:last_id"

def PROCESSING_KEY_NS : String := "videogen:processing"

def COMPLETED_KEY_NS : String := "videogen:completed"

def RETRY_BACKOFF_ON_ERROR_MS : Nat := 250

/-! ## Decimal rendering and parsing

`natToString` mirrors `format!("{n}")`; `parseU64` mirrors
`str::parse::<u64>().ok()` (sign handling per Rust's integer `FromStr`,
overflow ignored on unbounded `Nat`). -/

def digitChar (n : Nat) : Char := Char.ofNat (48 + n)

def natRenderAux : Nat → Nat → List Char → List Char
  | 0, _, acc => acc
  | fuel + 1, n, acc =>
    if n < 10 then digitChar n :: acc
    else natRenderAux fuel (n / 10) (digitChar (n % 10) :: acc)

def natRender (n : Nat) : List Char := natRenderAux (n + 1) n []

def natToString (n : Nat) : String := String.mk (natRender n)

def charDigit? (c : Char) : Option Nat :=
  if 48 ≤ c.toNat ∧ c.toNat ≤ 57 then some (c.toNat - 48) else none

def parseDigitsAux : List Char → Nat → Option Nat
  | [], acc => some acc
  | c :: rest, acc =>
    match charDigit? c with
    | some d => parseDigitsAux rest (acc * 10 + d)
    | none => none

def parseDigits : List Char → Option Nat
  | [] => none
  | cs => parseDigitsAux cs 0

def parseU64 (cs : List Char) : Option Nat :=
  match cs with
  | '+' :: rest => parseDigits rest
  | _ => parseDigits cs

/-! ## Entry-ID ordering

A stream entry ID has the form `<ms>-<seq>`.  `splitFirst` is the text
before the first dash — exactly what `last_id.split('-').next()` yields in
the source.  `msOf`/`seqOf` parse the two components (defaulting to 0,
matching the source's `unwrap_or(0)`), and `idLt`/`idLe` are the broker's
lexicographic ID order on the parsed pairs. -/

def splitFirst : List Char → List Char
  | [] => []
  | c :: rest => if c = '-' then [] else c :: splitFirst rest

def splitAfter : List Char → List Char
  | [] => []
  | c :: rest => if c = '-' then rest else splitAfter rest

def msOf (s : String) : Nat := (parseU64 (splitFirst s.data)).getD 0

def seqOf (s : String) : Nat := (parseU64 (splitFirst (splitAfter s.data))).getD 0

def idLt (a b : String) : Prop :=
  msOf a < msOf b ∨ (msOf a = msOf b ∧ seqOf a < seqOf b)

def idLe (a b : String) : Prop :=
  msOf a < msOf b ∨ (msOf a = msOf b ∧ seqOf a ≤ seqOf b)

instance : Decidable (idLt a b) := by unfold idLt; infer_instance

instance : Decidable (idLe a b) := by unfold idLe; infer_instance

/-! ## The broker's logical state and the worker's world -/

def mapGet (m : List (String × String)) (k : String) : Option String :=
  (m.find? (fun p => p.fst = k)).map (fun p => p.snd)

def mapSet (m : List (String × String)) (k v : String) : List (String × String) :=
  (k, v) :: m

def hashGet (h : List ((String × String) × String)) (k f : String) : Option String :=
  (h.find? (fun p => p.fst = (k, f))).map (fun p => p.snd)

def hashSet (h : List ((String × String) × String)) (k f v : String) :
    List ((String × String) × String) :=
  ((k, f), v) :: h

def memSet (s : List (String × String)) (k m : String) : Bool :=
  s.contains (k, m)

structure Store where
  strings : List (String × String)
  hashes : List ((String × String) × String)
  sets : List (String × String)
deriving DecidableEq

/-- Behaviour of one spawned child runner: it exits before the soft
timeout with a status code, having written the given hash fields through
its own broker connection (`(key, field) ↦ value`); or it is still running
when the timeout elapses; or `try_wait` errors; or the spawn itself fails. -/
inductive ChildWait where
  | exited (code : Option Int) (writes : List ((String × String) × String))
  | timedOut
  | waitErr (msg : String)
  | spawnFail
deriving DecidableEq

inductive Event where
  | logLine (tag : String)
  | spawn (jid : String)
  | kill
  | sleep (ms : Nat)
  | xtrim (minid : String)
  | reconnect
deriving DecidableEq

structure World where
  store : Store
  faults : List Bool
  childq : List ChildWait
  events : List Event
  nowMs : Nat
deriving DecidableEq

def World.logLine (w : World) (tag : String) : World :=
  { w with events := Event.logLine tag :: w.events }

def World.event (w : World) (e : Event) : World :=
  { w with events := e :: w.events }

def popFault (w : World) : Bool × World :=
  match w.faults with
  | [] => (false, w)
  | b :: rest => (b, { w with faults := rest })

def popChild (w : World) : ChildWait × World :=
  match w.childq with
  | [] => (ChildWait.spawnFail, w)
  | c :: rest => (c, { w with childq := rest })

/-! ## Redis commands over the worker's connection

Each consumes one fault slot; on a fault it returns the transport error
and leaves the store untouched, exactly as a failed round-trip would. -/

def brokerErr : String := "broker error"

def opSet (w : World) (k v : String) : Except String Unit × World :=
  let (f, w) := popFault w
  if f then (Except.error brokerErr, w)
  else (Except.ok (),
    { w with store := { w.store with strings := mapSet w.store.strings k v } })

def opSetEx (w : World) (k v : String) : Except String Unit × World :=
  let (f, w) := popFault w
  if f then (Except.error brokerErr, w)
  else (Except.ok (),
    { w with store := { w.store with strings := mapSet w.store.strings k v } })

def opGet (w : World) (k : String) : Except String (Option String) × World :=
  let (f, w) := popFault w
  if f then (Except.error brokerErr, w)
  else (Except.ok (mapGet w.store.strings k), w)

def opHSet (w : World) (k f v : String) : Except String Unit × World :=
  let (fa, w) := popFault w
  if fa then (Except.error brokerErr, w)
  else (Except.ok (),
    { w with store := { w.store with hashes := hashSet w.store.hashes k f v } })

def opHGet (w : World) (k f : String) : Except String (Option String) × World :=
  let (fa, w) := popFault w
  if fa then (Except.error brokerErr, w)
  else (Except.ok (hashGet w.store.hashes k f), w)

def opExists (w : World) (k : String) : Except String Bool × World :=
  let (f, w) := popFault w
  if f then (Except.error brokerErr, w)
  else (Except.ok (mapGet w.store.strings k).isSome, w)

def opSismember (w : World) (k m : String) : Except String Bool × World :=
  let (f, w) := popFault w
  if f then (Except.error brokerErr, w)
  else (Except.ok (memSet w.store.sets k m), w)

def opExpire (w : World) (_k : String) : Except String Bool × World :=
  let (f, w) := popFault w
  if f then (Except.error brokerErr, w)
  else (Except.ok true, w)

def opDel (w : World) (k : String) : Except String Unit × World :=
  let (f, w) := popFault w
  if f then (Except.error brokerErr, w)
  else (Except.ok (),
    { w with store :=
        { w.store with hashes := w.store.hashes.filter (fun p => ¬ p.fst.fst = k) } })

def opXtrim (w : World) (minid : String) : Except String Unit × World :=
  let (f, w) := popFault w
  if f then (Except.error brokerErr, w)
  else (Except.ok (), w.event (Event.xtrim minid))

/-! ## Broker values (`redis::Value`) and the defensive decoders

`RValue.data` stands for both `BulkString` and `SimpleString` payloads,
already UTF-8 decoded (see the modelling notes). -/

inductive RValue where
  | array (items : List RValue)
  | data (s : String)
  | int (i : Int)
  | nil
  | okay

def as_bulk : RValue → Option (List RValue)
  | RValue.array b => some b
  | _ => none

def as_data : RValue → Option String
  | RValue.data s => some s
  | _ => none

/-- `redis_get_string` (main.rs:356): `con.get(key).ok()` swallows any
transport error into `None`; a stored string is returned as `Some`.
In the model the store holds only strings, so the source's match on the
`BulkString`/`SimpleString`/`Okay` variants collapses to the lookup. -/
def redis_get_string (w : World) (key : String) : Option String × World :=
  match opGet w key with
  | (Except.error _, w) => (none, w)
  | (Except.ok v, w) => (v, w)

/-- Startup cursor load (main.rs:122):
`redis_get_string(&mut con, LAST_ID_KEY)?.unwrap_or(startup_id)`. -/
def startup_last_id (w : World) (startup_id : String) : String × World :=
  let (v, w) := redis_get_string w LAST_ID_KEY
  (v.getD startup_id, w)

/-- `mark_processing` (main.rs:378): two HSETs and an EXPIRE on the
processing checkpoint, each fallible with `?`. -/
def mark_processing (w : World) (entry_id jid : String) :
    Except String Unit × World :=
  match opHSet w (PROCESSING_KEY_NS ++ ":" ++ entry_id) "jid" jid with
  | (Except.error e, w) => (Except.error e, w)
  | (Except.ok _, w) =>
    match opHSet w (PROCESSING_KEY_NS ++ ":" ++ entry_id) "ts_ms" (natToString w.nowMs) with
    | (Except.error e, w) => (Except.error e, w)
    | (Except.ok _, w) =>
      match opExpire w (PROCESSING_KEY_NS ++ ":" ++ entry_id) with
      | (Except.error e, w) => (Except.error e, w)
      | (Except.ok _, w) => (Except.ok (), w)

/-- `is_completed` (main.rs:387): EXISTS on the per-entry key, with a
legacy SISMEMBER fallback; either command's failure propagates with `?`. -/
def is_completed (w : World) (entry_id : String) (_jid : String) :
    Except String Bool × World :=
  match opExists w (COMPLETED_KEY_NS ++ ":" ++ entry_id) with
  | (Except.error e, w) => (Except.error e, w)
  | (Except.ok true, w) => (Except.ok true, w)
  | (Except.ok false, w) => opSismember w COMPLETED_KEY_NS entry_id

/-- `mark_completed` (main.rs:398): SET EX the completion marker
(failure propagates), then best-effort DEL of the processing checkpoint
(failure only logged). -/
def mark_completed (w : World) (entry_id : String) (_jid : String) :
    Except String Unit × World :=
  match opSetEx w (COMPLETED_KEY_NS ++ ":" ++ entry_id) (natToString w.nowMs) with
  | (Except.error e, w) => (Except.error e, w)
  | (Except.ok _, w) =>
    match opDel w (PROCESSING_KEY_NS ++ ":" ++ entry_id) with
    | (Except.error _, w) =>
      (Except.ok (), w.logLine "[processing.cleanup.error]")
    | (Except.ok _, w) => (Except.ok (), w)

/-- `get_nonempty_hget` (main.rs:471): `con.hget(..).ok()` swallows the
transport error into `None`, then empty strings are filtered out; the
function itself always returns `Ok`. -/
def get_nonempty_hget (w : World) (key field : String) : Option String × World :=
  match opHGet w key field with
  | (Except.error _, w) => (none, w)
  | (Except.ok v, w) => (v.filter (fun s => !s.isEmpty), w)

/-- `run_python_for` (main.rs:419): idempotent short-circuit on a
non-empty `result_url`, spawn of the child runner, poll loop with soft
timeout, then a re-read of `result_url` whose error or absence is
collapsed to `""` by `unwrap_or_default`. -/
def run_python_for (w : World) (jid : String) (timeout_s : Nat) :
    Except String Unit × World :=
  match get_nonempty_hget w ("job:" ++ jid) "result_url" with
  | (some _url, w) => (Except.ok (), w.logLine "[handler.idempotent.shortcut]")
  | (none, w) =>
    let (child, w) := popChild w
    match child with
    | ChildWait.spawnFail => (Except.error "failed to spawn python runner", w)
    | ChildWait.timedOut =>
      let w := w.event (Event.spawn jid)
      (Except.error ("python runner timeout after " ++ natToString timeout_s ++ "s"),
        w.event Event.kill)
    | ChildWait.waitErr m =>
      let w := w.event (Event.spawn jid)
      (Except.error ("python runner wait error: " ++ m), w.event Event.kill)
    | ChildWait.exited code writes =>
      let w := w.event (Event.spawn jid)
      let w := { w with store := { w.store with hashes := writes ++ w.store.hashes } }
      if code = some 0 then
        match opHGet w ("job:" ++ jid) "result_url" with
        | (Except.error _, w) => (Except.error "no result_url set by runner", w)
        | (Except.ok v, w) =>
          let url := v.getD ""
          if url.isEmpty then (Except.error "no result_url set by runner", w)
          else (Except.ok (), w)
      else
        (Except.error ("python runner failed with status " ++
          (match code with
           | some c => "Some(" ++
               (if c < 0 then "-" ++ natToString (-c).toNat else natToString c.toNat)
               ++ ")"
           | none => "None")), w)

/-- `trim_stream_minid` (main.rs:484): no-op on an empty or `0-0` cursor,
on an unparsable or zero millisecond prefix (`last_ms == 0`), and on a
zero target; otherwise XTRIM MINID with the computed watermark.  Here
`msOf last_id` is, definitionally, the source's
`last_id.split('-').next().and_then(parse).unwrap_or(0)`, the saturating
`w.nowMs - trim_minutes * 60 * 1000` is `cutoff_ms`, and the `min` is
`target_ms = cutoff_ms.min(last_ms)`. -/
def trim_stream_minid (w : World) (_stream last_id : String) (trim_minutes : Nat) :
    Except String Unit × World :=
  if last_id.isEmpty ∨ last_id = "0-0" then (Except.ok (), w)
  else if msOf last_id = 0 then (Except.ok (), w)
  else if min (w.nowMs - trim_minutes * 60 * 1000) (msOf last_id) = 0 then
    (Except.ok (), w)
  else if min (w.nowMs - trim_minutes * 60 * 1000) (msOf last_id) = msOf last_id then
    opXtrim w last_id
  else
    opXtrim w (natToString (min (w.nowMs - trim_minutes * 60 * 1000) (msOf last_id)) ++ "-0")

/-! ## The Handler Dispatcher and main loop (main.rs:127-317) -/

/-- Entry-ID extraction from a decoded entry (main.rs:172-179):
`ev.get(0).and_then(as_data)... .unwrap_or_default()`. -/
def idOfEv (ev : List RValue) : String :=
  ((ev.get? 0).bind as_data).getD ""

def entryIdOf (e : RValue) : String :=
  match as_bulk e with
  | some ev => idOfEv ev
  | none => ""

/-- Job-ID extraction from the `[k,v,k,v,...]` field list
(main.rs:189-202): the value under key `"id"`, last occurrence winning,
`""` when absent. -/
def extract_jid : List RValue → String → String
  | [], acc => acc
  | [_], acc => acc
  | k :: v :: rest, acc =>
    let acc :=
      match as_data k, as_data v with
      | some kb, some vb => if kb = "id" then vb else acc
      | _, _ => acc
    extract_jid rest acc

def jidOfEv (ev : List RValue) : String :=
  match (ev.get? 1).bind as_bulk with
  | some kv => extract_jid kv ""
  | none => ""

/-- The source's recurring `if let Err(e) = con.hset(...) { eprintln!(tag) }`
pattern: HSET whose failure is only logged. -/
def hsetLogged (w : World) (k f v tag : String) : World :=
  match opHSet w k f v with
  | (Except.error _, w) => w.logLine tag
  | (Except.ok _, w) => w

/-- `con.set(LAST_ID_KEY, ..)` at main.rs:285, failure only logged. -/
def setLogged (w : World) (k v tag : String) : World :=
  match opSet w k v with
  | (Except.error _, w) => w.logLine tag
  | (Except.ok _, w) => w

/-- Per-entry dispatch (main.rs:211-280), from the extracted
`entry_id`/`jid` to the `(advance_last_id, fatal_error)` pair.  The
`Except.error` result is the `?` on `is_completed` at main.rs:217: the
error propagates out of `main`, terminating the worker. -/
def dispatch (w : World) (timeout_s : Nat) (entry_id jid : String) :
    Except String (Bool × Bool) × World :=
  if jid.isEmpty then
    (Except.ok (true, false), w.logLine "[entry.malformed] missing job id")
  else
    match is_completed w entry_id jid with
    | (Except.error e, w) => (Except.error e, w)
    | (Except.ok true, w) =>
      (Except.ok (true, false), w.logLine "[handler.skip.completed]")
    | (Except.ok false, w) =>
      match mark_processing w entry_id jid with
      | (Except.error _, w) =>
        (Except.ok (false, true), w.logLine "[processing.mark.error]")
      | (Except.ok _, w) =>
        match run_python_for
            (hsetLogged (hsetLogged w ("job:" ++ jid) "status" "processing"
                "[job.status.mark.error]")
              ("job:" ++ jid) "processing_entry_id" entry_id
              "[job.processing_entry.mark.error]")
            jid timeout_s with
        | (Except.ok _, w) =>
          (Except.ok (true, false),
            hsetLogged (mark_completed w entry_id jid).snd
              ("job:" ++ jid) "status" "completed" "[job.status.completed.error]")
        | (Except.error e, w) =>
          (Except.ok (false, true),
            hsetLogged
              (hsetLogged (w.logLine "[handler.error]")
                ("job:" ++ jid) "status" "failed" "[job.status.failed.error]")
              ("job:" ++ jid) "error" e "[job.error.write.error]")

/-- One entry of the inner `for entry in entries_bulk` loop
(main.rs:168-295): decode, dispatch, then advance-and-persist.  Returns
`(last_id', advanced_this_entry, fatal_error)`. -/
def process_entry (w : World) (timeout_s : Nat) (last_id : String) (e : RValue) :
    Except String (String × Bool × Bool) × World :=
  match as_bulk e with
  | none => (Except.ok (last_id, false, false), w)
  | some ev =>
    let entry_id := idOfEv ev
    if entry_id.isEmpty then
      (Except.ok (last_id, false, false), w.logLine "[entry.malformed] missing id")
    else
      match dispatch w timeout_s entry_id (jidOfEv ev) with
      | (Except.error e, w) => (Except.error e, w)
      | (Except.ok (advance, fatal), w) =>
        if advance then
          (Except.ok (entry_id, true, fatal),
            setLogged w LAST_ID_KEY entry_id "[last_id.persist.error]")
        else
          (Except.ok (last_id, false, fatal), w)

/-- The inner entry loop with the `break 'stream_loop` on a fatal error.
Returns `(last_id, advanced_any, had_batch_error)`. -/
def process_entries (w : World) (timeout_s : Nat) (last_id : String)
    (advanced : Bool) : List RValue → Except String (String × Bool × Bool) × World
  | [] => (Except.ok (last_id, advanced, false), w)
  | e :: rest =>
    match process_entry w timeout_s last_id e with
    | (Except.error err, w) => (Except.error err, w)
    | (Except.ok (lid, adv, fatal), w) =>
      if fatal then (Except.ok (lid, advanced || adv, true), w)
      else process_entries w timeout_s lid (advanced || adv) rest

/-- The outer `'stream_loop: for s in streams` (main.rs:156-297):
non-array or wrongly-shaped stream elements are skipped; a batch error
breaks out of the labelled loop. -/
def process_streams (w : World) (timeout_s : Nat) (last_id : String)
    (advanced : Bool) : List RValue → Except String (String × Bool × Bool) × World
  | [] => (Except.ok (last_id, advanced, false), w)
  | s :: rest =>
    match as_bulk s with
    | some [_, entries] =>
      match as_bulk entries with
      | some entries_bulk =>
        match process_entries w timeout_s last_id advanced entries_bulk with
        | (Except.error err, w) => (Except.error err, w)
        | (Except.ok (lid, adv, hadErr), w) =>
          if hadErr then (Except.ok (lid, adv, true), w)
          else process_streams w timeout_s lid adv rest
      | none => process_streams w timeout_s last_id advanced rest
    | _ => process_streams w timeout_s last_id advanced rest

/-- One iteration of the main loop (main.rs:127-317), parameterized by the
XREAD outcome `resp` (a transport error or a `redis::Value`).  On an XREAD
error the worker reconnects and `continue`s — skipping the trim block.  An
`Except.error` result is an error propagating out of `main` (the worker
process terminates). -/
def loop_iter (w : World) (timeout_s : Nat) (stream_name : String)
    (trim_minutes trim_every_n_loops loop_count : Nat) (last_id : String)
    (resp : Except String RValue) : Except String String × World :=
  match resp with
  | Except.error _ =>
    let w := w.logLine "[xread.error]"
    (Except.ok last_id, w.event Event.reconnect)
  | Except.ok value =>
    let (last_id, w) :=
      match value with
      | RValue.array streams =>
        match process_streams w timeout_s last_id false streams with
        | (Except.error err, w) => (Except.error err, w)
        | (Except.ok (lid, advanced_any, had_batch_error), w) =>
          let w := if advanced_any then w else w.event (Event.sleep 25)
          let w :=
            if had_batch_error then w.event (Event.sleep RETRY_BACKOFF_ON_ERROR_MS)
            else w
          (Except.ok lid, w)
      | _ => (Except.ok last_id, w.event (Event.sleep 10))
    match last_id with
    | Except.error err => (Except.error err, w)
    | Except.ok lid =>
      if loop_count % trim_every_n_loops = 0 then
        match trim_stream_minid w stream_name lid trim_minutes with
        | (Except.error _, w) => (Except.ok lid, w.logLine "[trim.error]")
        | (Except.ok _, w) => (Except.ok lid, w)
      else (Except.ok lid, w)

/-! ## Claim-side observables -/

def isSkipLog : Event → Bool
  | Event.logLine t => t = "[handler.skip.completed]"
  | _ => false

def isSpawn : Event → Bool
  | Event.spawn _ => true
  | _ => false

def countSkips (es : List Event) : Nat := es.countP isSkipLog

def countSpawns (es : List Event) : Nat := es.countP isSpawn

/-- Replaying the same (already decoded) broker entry `n` times through
the per-entry handler, threading the cursor, as redelivery would. -/
def replay (t : Nat) (e : RValue) : Nat → World → String → World × String
  | 0, w, last => (w, last)
  | n + 1, w, last =>
    match process_entry w t last e with
    | (Except.ok (lid, _, _), w') => replay t e n w' lid
    | (Except.error _, w') => (w', last)

/-- Child behaviours that make `run_python_for` fail when the job record
has no `result_url` before dispatch: a non-zero (or signal) exit status, a
soft-timeout elapse, a `try_wait` error, a failed spawn, or a clean exit
that wrote nothing (so the `result_url` re-read stays empty). -/
def childFails : ChildWait → Prop
  | ChildWait.exited code writes => ¬ code = some 0 ∨ writes = []
  | ChildWait.timedOut => True
  | ChildWait.waitErr _ => True
  | ChildWait.spawnFail => True

/-- The error message `run_python_for` produces for each failing child
behaviour (matching the `bail!` strings in the source). -/
def failMsg (t : Nat) : ChildWait → String
  | ChildWait.exited code _ =>
    if code = some 0 then "no result_url set by runner"
    else "python runner failed with status " ++
      (match code with
       | some c => "Some(" ++
           (if c < 0 then "-" ++ natToString (-c).toNat else natToString c.toNat)
           ++ ")"
       | none => "None")
  | ChildWait.timedOut => "python runner timeout after " ++ natToString t ++ "s"
  | ChildWait.waitErr m => "python runner wait error: " ++ m
  | ChildWait.spawnFail => "failed to spawn python runner"

/-- The entry IDs the worker extracts from one stream element of an XREAD
response (the positions it could acknowledge). -/
def streamIds (s : RValue) : List String :=
  match as_bulk s with
  | some [_, entries] =>
    match as_bulk entries with
    | some es => es.map entryIdOf
    | none => []
  | _ => []

/-- All entry IDs the worker extracts from an XREAD response value. -/
def respIds : RValue → List String
  | RValue.array streams => (streams.map streamIds).flatten
  | _ => []

/-! ## Helper lemmas: association lists -/

theorem mapGet_set_self (m : List (String × String)) (k v : String) :
    mapGet (mapSet m k v) k = some v := by
  simp [mapGet, mapSet, List.find?]

theorem mapGet_set_ne (m : List (String × String)) (k v k' : String)
    (h : ¬ k = k') : mapGet (mapSet m k v) k' = mapGet m k' := by
  simp [mapGet, mapSet, List.find?, h]

theorem hashGet_set_self (h : List ((String × String) × String)) (k f v : String) :
    hashGet (hashSet h k f v) k f = some v := by
  simp [hashGet, hashSet, List.find?]

theorem hashGet_set_ne (h : List ((String × String) × String)) (k f v k' f' : String)
    (hne : ¬ (k, f) = (k', f')) :
    hashGet (hashSet h k f v) k' f' = hashGet h k' f' := by
  simp [hashGet, hashSet, List.find?, hne]

/-! ## Helper lemmas: the entry-ID order -/

theorem idLe_refl (a : String) : idLe a a := Or.inr ⟨rfl, Nat.le_refl _⟩

theorem not_idLt_of_idLe {a b : String} (h : idLe a b) : ¬ idLt b a := by
  rcases h with h | ⟨h1, h2⟩ <;> rintro (h3 | ⟨h4, h5⟩) <;> omega

theorem idLe_of_idLt {a b : String} (h : idLt a b) : idLe a b := by
  rcases h with h | ⟨h1, h2⟩
  · exact Or.inl h
  · exact Or.inr ⟨h1, Nat.le_of_lt h2⟩

/-! ## Helper lemmas: decimal rendering round-trips through parsing -/

theorem natRenderAux_mem (fuel : Nat) : ∀ n acc c, c ∈ natRenderAux fuel n acc →
    c ∈ acc ∨ ∃ d, d < 10 ∧ c = digitChar d := by
  induction fuel with
  | zero => intro n acc c hc; exact Or.inl hc
  | succ fuel ih =>
    intro n acc c hc
    by_cases hn : n < 10
    · simp only [natRenderAux, if_pos hn] at hc
      rcases List.mem_cons.mp hc with h | h
      · exact Or.inr ⟨n, hn, h⟩
      · exact Or.inl h
    · simp only [natRenderAux, if_neg hn] at hc
      rcases ih (n / 10) (digitChar (n % 10) :: acc) c hc with h | h
      · rcases List.mem_cons.mp h with h' | h'
        · exact Or.inr ⟨n % 10, Nat.mod_lt _ (by omega), h'⟩
        · exact Or.inl h'
      · exact Or.inr h

theorem natRenderAux_ne_nil (fuel : Nat) : ∀ n acc, acc ≠ [] →
    natRenderAux fuel n acc ≠ [] := by
  induction fuel with
  | zero => intro n acc h; exact h
  | succ fuel ih =>
    intro n acc h
    by_cases hn : n < 10
    · simp only [natRenderAux, if_pos hn]; exact List.cons_ne_nil _ _
    · simp only [natRenderAux, if_neg hn]
      exact ih (n / 10) _ (List.cons_ne_nil _ _)

theorem natRender_ne_nil (n : Nat) : natRender n ≠ [] := by
  unfold natRender natRenderAux
  by_cases hn : n < 10
  · simp only [if_pos hn]; exact List.cons_ne_nil _ _
  · simp only [if_neg hn]
    exact natRenderAux_ne_nil _ _ _ (List.cons_ne_nil _ _)

theorem natRender_mem (n : Nat) (c : Char) (hc : c ∈ natRender n) :
    ∃ d, d < 10 ∧ c = digitChar d := by
  rcases natRenderAux_mem _ _ _ _ hc with h | h
  · simp at h
  · exact h

theorem digitChar_ne_dash : ∀ d, d < 10 → ¬ digitChar d = '-' := by decide

theorem digitChar_ne_plus : ∀ d, d < 10 → ¬ digitChar d = '+' := by decide

theorem charDigit?_digitChar : ∀ d, d < 10 → charDigit? (digitChar d) = some d := by
  decide

theorem splitFirst_append_dash (xs ys : List Char)
    (h : ∀ c ∈ xs, ¬ c = '-') : splitFirst (xs ++ '-' :: ys) = xs := by
  induction xs with
  | nil => simp [splitFirst]
  | cons c rest ih =>
    have hc := h c (List.mem_cons_self c rest)
    simp only [List.cons_append, splitFirst, if_neg hc]
    show c :: splitFirst (rest ++ '-' :: ys) = c :: rest
    rw [ih (fun c' hc' => h c' (List.mem_cons_of_mem _ hc'))]

theorem splitFirst_no_dash (xs : List Char) (h : ∀ c ∈ xs, ¬ c = '-') :
    splitFirst xs = xs := by
  induction xs with
  | nil => rfl
  | cons c rest ih =>
    have hc := h c (List.mem_cons_self c rest)
    simp only [splitFirst, if_neg hc]
    rw [ih (fun c' hc' => h c' (List.mem_cons_of_mem _ hc'))]

theorem parseDigitsAux_renderAux (fuel : Nat) : ∀ n acc, n < 10 ^ fuel →
    ∃ M, 0 < M ∧ ∀ a, parseDigitsAux (natRenderAux fuel n acc) a =
      parseDigitsAux acc (a * M + n) := by
  induction fuel with
  | zero =>
    intro n acc hn
    have hn0 : n = 0 := by omega
    exact ⟨1, Nat.one_pos, fun a => by simp [natRenderAux, hn0]⟩
  | succ fuel ih =>
    intro n acc hn
    by_cases h10 : n < 10
    · refine ⟨10, by omega, fun a => ?_⟩
      simp only [natRenderAux, if_pos h10, parseDigitsAux,
        charDigit?_digitChar n h10]
    · have hdiv : n / 10 < 10 ^ fuel := by
        rw [Nat.div_lt_iff_lt_mul (by norm_num : (0:Nat) < 10)]
        calc n < 10 ^ (fuel + 1) := hn
          _ = 10 ^ fuel * 10 := by rw [pow_succ]
      rcases ih (n / 10) (digitChar (n % 10) :: acc) hdiv with ⟨M, hM, hEq⟩
      refine ⟨M * 10, by positivity, fun a => ?_⟩
      simp only [natRenderAux, if_neg h10, hEq]
      simp only [parseDigitsAux, charDigit?_digitChar (n % 10) (Nat.mod_lt _ (by omega))]
      congr 1
      have hdm : n / 10 * 10 + n % 10 = n := by omega
      calc (a * M + n / 10) * 10 + n % 10
          = a * M * 10 + (n / 10 * 10 + n % 10) := by ring
        _ = a * (M * 10) + n := by rw [hdm]; ring

/-! ## Derived round-trip facts for the trim watermark -/

theorem parseDigits_cons (c : Char) (rest : List Char) :
    parseDigits (c :: rest) = parseDigitsAux (c :: rest) 0 := rfl

theorem parseDigits_natRender (n : Nat) : parseDigits (natRender n) = some n := by
  have h1 : n < 10 ^ (n + 1) := by
    calc n < 10 ^ n := Nat.lt_pow_self (by norm_num) n
      _ ≤ 10 ^ (n + 1) := Nat.pow_le_pow_right (by norm_num) (Nat.le_succ n)
  obtain ⟨M, _hM, hEq⟩ := parseDigitsAux_renderAux (n + 1) n [] h1
  have h2 : parseDigitsAux (natRender n) 0 = some n := by
    have h3 := hEq 0
    simpa [parseDigitsAux, natRender] using h3
  rcases hcons : natRender n with _ | ⟨c, rest⟩
  · exact absurd hcons (natRender_ne_nil n)
  · rw [hcons] at h2
    rw [parseDigits_cons]
    exact h2

theorem parseU64_natRender (n : Nat) : parseU64 (natRender n) = some n := by
  rcases hcons : natRender n with _ | ⟨c, rest⟩
  · exact absurd hcons (natRender_ne_nil n)
  · have hcmem : c ∈ natRender n := by
      rw [hcons]; exact List.mem_cons_self _ _
    obtain ⟨d, hd, hcd⟩ := natRender_mem n c hcmem
    have hplus : ¬ c = '+' := by rw [hcd]; exact digitChar_ne_plus d hd
    have hstep : parseU64 (c :: rest) = parseDigits (c :: rest) := by
      unfold parseU64
      split
      · next heq => rw [List.cons.injEq] at heq; exact absurd heq.1 hplus
      · rfl
    rw [hstep, ← hcons, parseDigits_natRender]

theorem natRender_no_dash (n : Nat) : ∀ c ∈ natRender n, ¬ c = '-' := by
  intro c hc
  obtain ⟨d, hd, hcd⟩ := natRender_mem n c hc
  rw [hcd]; exact digitChar_ne_dash d hd

theorem msOf_formatted (n : Nat) : msOf (natToString n ++ "-0") = n := by
  have hdata : (natToString n ++ "-0").data = natRender n ++ '-' :: '0' :: [] := by
    rw [String.data_append]; rfl
  unfold msOf
  rw [hdata, splitFirst_append_dash _ _ (natRender_no_dash n), parseU64_natRender]
  rfl

/-! ## Order helper lemmas -/

theorem idLt_of_idLt_of_idLe {a b c : String} (h1 : idLt a b) (h2 : idLe b c) :
    idLt a c := by
  simp only [idLt, idLe] at h1 h2 ⊢; omega

theorem idLe_trans {a b c : String} (h1 : idLe a b) (h2 : idLe b c) :
    idLe a c := by
  simp only [idLe] at h1 h2 ⊢; omega

/-! ## Key-distinctness lemmas -/

theorem append_ne_of_head_ne (p q : String) (cp cq : Char) (tp tq : List Char)
    (hp : p.data = cp :: tp) (hq : q.data = cq :: tq) (hne : ¬ cp = cq)
    (x y : String) : ¬ (p ++ x = q ++ y) := by
  intro he
  have hd := congrArg String.data he
  rw [String.data_append, String.data_append, hp, hq] at hd
  rw [List.cons_append, List.cons_append, List.cons.injEq] at hd
  exact hne hd.1

theorem completedKey_ne_lastIdKey (eid : String) :
    ¬ (COMPLETED_KEY_NS ++ ":" ++ eid = LAST_ID_KEY) := by
  intro h
  have hl := congrArg String.length h
  rw [String.length_append] at hl
  have h1 : (COMPLETED_KEY_NS ++ ":").length = 19 := rfl
  have h2 : LAST_ID_KEY.length = 16 := rfl
  omega

theorem lastIdKey_ne_completedKey (eid : String) :
    ¬ (LAST_ID_KEY = COMPLETED_KEY_NS ++ ":" ++ eid) := by
  intro h
  exact completedKey_ne_lastIdKey eid h.symm

/-! ## Fault-free and faulting behaviour of each broker command -/

theorem popFault_nil (w : World) (h : w.faults = []) : popFault w = (false, w) := by
  simp [popFault, h]

theorem opSet_nf (w : World) (h : w.faults = []) (k v : String) :
    opSet w k v = (Except.ok (),
      { w with store := { w.store with strings := mapSet w.store.strings k v } }) := by
  simp [opSet, popFault_nil w h]

theorem opSetEx_nf (w : World) (h : w.faults = []) (k v : String) :
    opSetEx w k v = (Except.ok (),
      { w with store := { w.store with strings := mapSet w.store.strings k v } }) := by
  simp [opSetEx, popFault_nil w h]

theorem opGet_nf (w : World) (h : w.faults = []) (k : String) :
    opGet w k = (Except.ok (mapGet w.store.strings k), w) := by
  simp [opGet, popFault_nil w h]

theorem opHSet_nf (w : World) (h : w.faults = []) (k f v : String) :
    opHSet w k f v = (Except.ok (),
      { w with store := { w.store with hashes := hashSet w.store.hashes k f v } }) := by
  simp [opHSet, popFault_nil w h]

theorem opHGet_nf (w : World) (h : w.faults = []) (k f : String) :
    opHGet w k f = (Except.ok (hashGet w.store.hashes k f), w) := by
  simp [opHGet, popFault_nil w h]

theorem opExists_nf (w : World) (h : w.faults = []) (k : String) :
    opExists w k = (Except.ok (mapGet w.store.strings k).isSome, w) := by
  simp [opExists, popFault_nil w h]

theorem opSismember_nf (w : World) (h : w.faults = []) (k m : String) :
    opSismember w k m = (Except.ok (memSet w.store.sets k m), w) := by
  simp [opSismember, popFault_nil w h]

theorem opExpire_nf (w : World) (h : w.faults = []) (k : String) :
    opExpire w k = (Except.ok true, w) := by
  simp [opExpire, popFault_nil w h]

theorem opDel_nf (w : World) (h : w.faults = []) (k : String) :
    opDel w k = (Except.ok (),
      { w with store :=
          { w.store with hashes := w.store.hashes.filter (fun p => ¬ p.fst.fst = k) } }) := by
  simp [opDel, popFault_nil w h]

theorem popFault_cons (w : World) (b : Bool) (fs : List Bool)
    (h : w.faults = b :: fs) : popFault w = (b, { w with faults := fs }) := by
  simp [popFault, h]

theorem opExists_fault (w : World) (fs : List Bool) (h : w.faults = true :: fs)
    (k : String) : opExists w k = (Except.error brokerErr, { w with faults := fs }) := by
  simp [opExists, popFault_cons w true fs h]

theorem opGet_fault (w : World) (fs : List Bool) (h : w.faults = true :: fs)
    (k : String) : opGet w k = (Except.error brokerErr, { w with faults := fs }) := by
  simp [opGet, popFault_cons w true fs h]

theorem opHGet_fault (w : World) (fs : List Bool) (h : w.faults = true :: fs)
    (k f : String) : opHGet w k f = (Except.error brokerErr, { w with faults := fs }) := by
  simp [opHGet, popFault_cons w true fs h]

theorem opXtrim_events (w : World) (m : String) :
    (opXtrim w m).snd.events = w.events ∨
    (opXtrim w m).snd.events = Event.xtrim m :: w.events := by
  unfold opXtrim popFault World.event
  rcases hf : w.faults with _ | ⟨b, fs⟩
  · right; rfl
  · cases b
    · right; rfl
    · left; rfl

/-- **C4** (invariants, confirmed).  For every cursor value and retention
window, `trim_stream_minid` either no-ops — leaving the event trace
unchanged (cursor empty, the `0-0` sentinel, unparsable or zero
millisecond prefix, zero target, or a failed XTRIM round-trip) — or issues
exactly one XTRIM watermark `m` with, for
`target_ms = min(cutoff_ms, last_ms)`: `m` the full cursor string when
`target_ms = last_ms`, and `"{target_ms}-0"` otherwise; in both cases
`m ≤ cursor` under entry-ID ordering, so an entry whose ID is below the
watermark (the ones MINID discards) is never strictly greater than the
cursor. -/
theorem trim_watermark_le_cursor (w : World) (stream last_id : String) (tm : Nat) :
    (trim_stream_minid w stream last_id tm).snd.events = w.events ∨
    ∃ m, (trim_stream_minid w stream last_id tm).snd.events =
        Event.xtrim m :: w.events ∧
      idLe m last_id ∧
      (∀ e, idLt e m → ¬ idLt last_id e) ∧
      ((min (w.nowMs - tm * 60 * 1000) (msOf last_id) = msOf last_id ∧
          m = last_id) ∨
       (min (w.nowMs - tm * 60 * 1000) (msOf last_id) < msOf last_id ∧
          m = natToString (min (w.nowMs - tm * 60 * 1000) (msOf last_id)) ++ "-0")) := by
  unfold trim_stream_minid
  split
  · exact Or.inl rfl
  · split
    · exact Or.inl rfl
    · split
      · exact Or.inl rfl
      · split
        · next htgt =>
          rcases opXtrim_events w last_id with h | h
          · exact Or.inl h
          · refine Or.inr ⟨last_id, h, idLe_refl last_id, ?_, Or.inl ⟨htgt, rfl⟩⟩
            intro e he
            exact not_idLt_of_idLe (idLe_of_idLt he)
        · next htgt =>
          have hlt : min (w.nowMs - tm * 60 * 1000) (msOf last_id) < msOf last_id :=
            Nat.lt_of_le_of_ne (Nat.min_le_right _ _) htgt
          set t := min (w.nowMs - tm * 60 * 1000) (msOf last_id) with ht
          rcases opXtrim_events w (natToString t ++ "-0") with h | h
          · exact Or.inl h
          · have hms : msOf (natToString t ++ "-0") = t := msOf_formatted t
            have hle : idLe (natToString t ++ "-0") last_id := by
              left; rw [hms]; exact hlt
            refine Or.inr ⟨natToString t ++ "-0", h, hle, ?_, Or.inr ⟨hlt, rfl⟩⟩
            intro e he
            exact not_idLt_of_idLe (idLe_of_idLt (idLt_of_idLt_of_idLe he hle))

theorem opHGet_ok_cons (w : World) (fs : List Bool) (h : w.faults = false :: fs)
    (k f : String) :
    opHGet w k f = (Except.ok (hashGet w.store.hashes k f), { w with faults := fs }) := by
  simp [opHGet, popFault_cons w false fs h]

/-- **C9** (error_handling, confirmed).  A broker error on the startup
read of the persisted cursor key is swallowed by `redis_get_string`
(`con.get(key).ok()`): the load reports "absent", the worker falls back
to the configured start position `s`, and — at this interface — the
outcome is identical to that of a fault-free load against a broker that
has no cursor at all, even though `w` actually holds a persisted cursor
`v`. -/
theorem cursor_load_failure_reads_as_absent (w w2 : World) (fs : List Bool)
    (v s : String)
    (hf : w.faults = true :: fs)
    (hv : mapGet w.store.strings LAST_ID_KEY = some v)
    (h2f : w2.faults = [])
    (h2v : mapGet w2.store.strings LAST_ID_KEY = none) :
    (redis_get_string w LAST_ID_KEY).fst = none ∧
    (startup_last_id w s).fst = s ∧
    (redis_get_string w LAST_ID_KEY).fst = (redis_get_string w2 LAST_ID_KEY).fst ∧
    (startup_last_id w s).fst = (startup_last_id w2 s).fst := by
  have h1 : redis_get_string w LAST_ID_KEY = (none, { w with faults := fs }) := by
    simp [redis_get_string, opGet_fault w fs hf]
  have h2 : redis_get_string w2 LAST_ID_KEY = (none, w2) := by
    simp [redis_get_string, opGet_nf w2 h2f, h2v]
  refine ⟨by rw [h1], ?_, by rw [h1, h2], ?_⟩
  · simp [startup_last_id, h1]
  · simp [startup_last_id, h1, h2]

/-- Witness for C9 at a concrete world: a cursor `"7-0"` is persisted but
the GET faults, so startup falls back to `"$"`, exactly as with an absent
cursor. -/
theorem cursor_load_failure_reads_as_absent_witness :
    (mapGet ([("videogen:last_id", "7-0")] : List (String × String)) LAST_ID_KEY
        = some "7-0") ∧
    (startup_last_id
        { store := ⟨[("videogen:last_id", "7-0")], [], []⟩, faults := [true],
          childq := [], events := [], nowMs := 0 } "$").fst = "$" :=
  ⟨by decide,
   (cursor_load_failure_reads_as_absent
      { store := ⟨[("videogen:last_id", "7-0")], [], []⟩, faults := [true],
        childq := [], events := [], nowMs := 0 }
      { store := ⟨[], [], []⟩, faults := [], childq := [], events := [], nowMs := 0 }
      [] "7-0" "$" rfl (by decide) rfl (by decide)).2.1⟩

theorem is_completed_fault (w : World) (fs : List Bool) (h : w.faults = true :: fs)
    (eid jid : String) :
    is_completed w eid jid = (Except.error brokerErr, { w with faults := fs }) := by
  simp [is_completed, opExists_fault w fs h]

theorem dispatch_fault (w : World) (fs : List Bool) (t : Nat) (eid jid : String)
    (h : w.faults = true :: fs) (hjid : ¬ jid.isEmpty = true) :
    dispatch w t eid jid = (Except.error brokerErr, { w with faults := fs }) := by
  simp [dispatch, hjid, is_completed_fault w fs h eid jid]

/-- **C1** counterexample (closed): at a concrete world whose very first
broker command faults, and a response holding one well-formed entry
(`1-1`, job `jobA`), the `?` on `is_completed` at main.rs:217 propagates
the broker error out of the dispatch loop: `loop_iter` returns
`Except.error`, i.e. `main` returns `Err` and the worker process
terminates — the Dispatcher does not treat the failed check as "unknown"
and does not proceed with the entry. -/
theorem is_completed_error_kills_worker_cex :
    (loop_iter
      { store := ⟨[], [], []⟩, faults := [true], childq := [], events := [],
        nowMs := 0 }
      600 "videogen:jobs" 120 80 1 "0-0"
      (Except.ok (RValue.array [RValue.array [RValue.data "videogen:jobs",
        RValue.array [RValue.array [RValue.data "1-1",
          RValue.array [RValue.data "id", RValue.data "jobA"]]]]]))).fst
    = Except.error brokerErr := by
  rfl

/-- **C1** as amended: when the completion-marker check `is_completed`
fails with a broker error on an entry that has a job id, the error is not
treated as "unknown": it propagates out of `main` (the `?` at
main.rs:217), so the worker process terminates with that error.  What
does hold of the original claim is the absence of a state change: the
broker store — the persisted cursor included — is exactly as before. -/
theorem is_completed_error_kills_worker (w : World) (fs : List Bool) (t : Nat)
    (sn : String) (tm te lc : Nat) (last : String) (ev : List RValue)
    (sname : RValue) (rest more : List RValue)
    (hf : w.faults = true :: fs)
    (hid : ¬ (idOfEv ev).isEmpty = true)
    (hjid : ¬ (jidOfEv ev).isEmpty = true) :
    loop_iter w t sn tm te lc last
        (Except.ok (RValue.array (RValue.array [sname,
          RValue.array (RValue.array ev :: rest)] :: more))) =
      (Except.error brokerErr, { w with faults := fs }) ∧
    (loop_iter w t sn tm te lc last
        (Except.ok (RValue.array (RValue.array [sname,
          RValue.array (RValue.array ev :: rest)] :: more)))).snd.store = w.store := by
  have h1 : process_entry w t last (RValue.array ev) =
      (Except.error brokerErr, { w with faults := fs }) := by
    simp [process_entry, as_bulk, hid, dispatch_fault w fs t _ _ hf hjid]
  have h2 : loop_iter w t sn tm te lc last
      (Except.ok (RValue.array (RValue.array [sname,
        RValue.array (RValue.array ev :: rest)] :: more))) =
      (Except.error brokerErr, { w with faults := fs }) := by
    simp [loop_iter, process_streams, as_bulk, process_entries, h1]
  exact ⟨h2, by rw [h2]⟩

/-- Witness for the amended C1 at a concrete input. -/
theorem is_completed_error_kills_worker_witness :
    loop_iter
      { store := ⟨[("videogen:last_id", "0-5")], [], []⟩, faults := [true],
        childq := [], events := [], nowMs := 0 }
      600 "videogen:jobs" 120 80 1 "0-5"
      (Except.ok (RValue.array [RValue.array [RValue.data "videogen:jobs",
        RValue.array [RValue.array [RValue.data "1-1",
          RValue.array [RValue.data "id", RValue.data "jobA"]]]]])) =
      (Except.error brokerErr,
        { store := ⟨[("videogen:last_id", "0-5")], [], []⟩, faults := [],
          childq := [], events := [], nowMs := 0 }) :=
  (is_completed_error_kills_worker
    { store := ⟨[("videogen:last_id", "0-5")], [], []⟩, faults := [true],
      childq := [], events := [], nowMs := 0 }
    [] 600 "videogen:jobs" 120 80 1 "0-5"
    [RValue.data "1-1", RValue.array [RValue.data "id", RValue.data "jobA"]]
    (RValue.data "videogen:jobs") [] []
    rfl (by decide) (by decide)).1

/-- **C3** (functional_correctness, confirmed).  When the job record's
`result_url` is already non-empty as dispatch begins (and the read of it
does not fault), `run_python_for` logs the idempotent shortcut and
returns success: no child behaviour is consumed from the spawn oracle and
no spawn event is emitted. -/
theorem result_url_shortcircuit_no_spawn (w : World) (jid u : String) (t : Nat)
    (hf : w.faults = [])
    (hu : hashGet w.store.hashes ("job:" ++ jid) "result_url" = some u)
    (hne : ¬ u.isEmpty = true) :
    run_python_for w jid t =
      (Except.ok (), w.logLine "[handler.idempotent.shortcut]") ∧
    (run_python_for w jid t).snd.childq = w.childq ∧
    countSpawns (run_python_for w jid t).snd.events = countSpawns w.events := by
  have h1 : get_nonempty_hget w ("job:" ++ jid) "result_url" = (some u, w) := by
    simp [get_nonempty_hget, opHGet_nf w hf, hu, Option.filter, hne]
  have h2 : run_python_for w jid t =
      (Except.ok (), w.logLine "[handler.idempotent.shortcut]") := by
    simp [run_python_for, h1]
  refine ⟨h2, by rw [h2]; rfl, ?_⟩
  rw [h2]
  simp [countSpawns, World.logLine, List.countP_cons, isSpawn]

/-- Witness for C3 at a concrete world with `result_url = "s3://y"`. -/
theorem result_url_shortcircuit_no_spawn_witness :
    run_python_for
      { store := ⟨[], [(("job:jobC", "result_url"), "s3://y")], []⟩, faults := [],
        childq := [ChildWait.timedOut], events := [], nowMs := 0 }
      "jobC" 600 =
    (Except.ok (),
      { store := ⟨[], [(("job:jobC", "result_url"), "s3://y")], []⟩, faults := [],
        childq := [ChildWait.timedOut],
        events := [Event.logLine "[handler.idempotent.shortcut]"], nowMs := 0 }) :=
  (result_url_shortcircuit_no_spawn
    { store := ⟨[], [(("job:jobC", "result_url"), "s3://y")], []⟩, faults := [],
      childq := [ChildWait.timedOut], events := [], nowMs := 0 }
    "jobC" "s3://y" 600 rfl (by decide) (by decide)).1

/-- **C10** (error_handling, confirmed).  The child exits `0` having
written a non-empty `result_url` through its own connection, but the
worker's re-read of `job:{jid}.result_url` faults; `unwrap_or_default`
collapses the error to `""`, so `run_python_for` fails with
`"no result_url set by runner"` although the store really does hold the
non-empty `result_url` the runner wrote. -/
theorem reread_fault_fails_despite_result_url (w : World) (jid u : String)
    (t : Nat) (fs : List Bool) (cq : List ChildWait)
    (hf : w.faults = false :: true :: fs)
    (hc : w.childq = ChildWait.exited (some 0)
        [(("job:" ++ jid, "result_url"), u)] :: cq)
    (hru : hashGet w.store.hashes ("job:" ++ jid) "result_url" = none) :
    (run_python_for w jid t).fst = Except.error "no result_url set by runner" ∧
    hashGet (run_python_for w jid t).snd.store.hashes ("job:" ++ jid) "result_url"
      = some u := by
  have h1 : get_nonempty_hget w ("job:" ++ jid) "result_url" =
      (none, { w with faults := true :: fs }) := by
    simp [get_nonempty_hget, opHGet_ok_cons w (true :: fs) hf, hru]
  have h2 : run_python_for w jid t =
      (Except.error "no result_url set by runner",
        { w with
          faults := fs,
          childq := cq,
          store := { w.store with
            hashes := (("job:" ++ jid, "result_url"), u) :: w.store.hashes },
          events := Event.spawn jid :: w.events }) := by
    simp only [run_python_for, h1, popChild, hc]
    simp [World.event, opHGet_fault, popFault_cons]
  rw [h2]
  exact ⟨rfl, by simp [hashGet, List.find?]⟩

/-- Witness for C10 at a concrete world: the runner wrote
`result_url = "s3://x"`, the re-read faults, the dispatch still fails. -/
theorem reread_fault_fails_despite_result_url_witness :
    (run_python_for
      { store := ⟨[], [], []⟩, faults := [false, true],
        childq := [ChildWait.exited (some 0) [(("job:jobA", "result_url"), "s3://x")]],
        events := [], nowMs := 0 }
      "jobA" 600).fst = Except.error "no result_url set by runner" :=
  (reread_fault_fails_despite_result_url
    { store := ⟨[], [], []⟩, faults := [false, true],
      childq := [ChildWait.exited (some 0) [(("job:jobA", "result_url"), "s3://x")]],
      events := [], nowMs := 0 }
    "jobA" "s3://x" 600 [] [] rfl rfl (by decide)).1

theorem pair_ne_of_snd_ne {a b c d : String} (h : ¬ b = d) : ¬ ((a, b) = (c, d)) := by
  intro he
  rw [Prod.mk.injEq] at he
  exact h he.2

theorem is_completed_nf_true (w : World) (eid jid : String)
    (hf : w.faults = [])
    (hm : (mapGet w.store.strings (COMPLETED_KEY_NS ++ ":" ++ eid)).isSome = true ∨
          memSet w.store.sets COMPLETED_KEY_NS eid = true) :
    is_completed w eid jid = (Except.ok true, w) := by
  by_cases hkey : (mapGet w.store.strings (COMPLETED_KEY_NS ++ ":" ++ eid)).isSome = true
  · simp [is_completed, opExists_nf w hf, hkey]
  · have hmem : memSet w.store.sets COMPLETED_KEY_NS eid = true := hm.resolve_left hkey
    simp [is_completed, opExists_nf w hf, opSismember_nf w hf, hkey, hmem]

theorem is_completed_nf_false (w : World) (eid jid : String)
    (hf : w.faults = [])
    (hk : mapGet w.store.strings (COMPLETED_KEY_NS ++ ":" ++ eid) = none)
    (hs : memSet w.store.sets COMPLETED_KEY_NS eid = false) :
    is_completed w eid jid = (Except.ok false, w) := by
  simp [is_completed, opExists_nf w hf, hk, opSismember_nf w hf, hs]

theorem dispatch_skip (w : World) (t : Nat) (eid jid : String)
    (hf : w.faults = []) (hjid : ¬ jid.isEmpty = true)
    (hm : (mapGet w.store.strings (COMPLETED_KEY_NS ++ ":" ++ eid)).isSome = true ∨
          memSet w.store.sets COMPLETED_KEY_NS eid = true) :
    dispatch w t eid jid =
      (Except.ok (true, false), w.logLine "[handler.skip.completed]") := by
  simp [dispatch, hjid, is_completed_nf_true w eid jid hf hm]

theorem process_entry_skip (w : World) (t : Nat) (last : String) (ev : List RValue)
    (hf : w.faults = [])
    (hid : ¬ (idOfEv ev).isEmpty = true)
    (hjid : ¬ (jidOfEv ev).isEmpty = true)
    (hm : (mapGet w.store.strings
            (COMPLETED_KEY_NS ++ ":" ++ idOfEv ev)).isSome = true ∨
          memSet w.store.sets COMPLETED_KEY_NS (idOfEv ev) = true) :
    process_entry w t last (RValue.array ev) =
      (Except.ok (idOfEv ev, true, false),
        { w with
          store := { w.store with
            strings := mapSet w.store.strings LAST_ID_KEY (idOfEv ev) },
          events := Event.logLine "[handler.skip.completed]" :: w.events }) := by
  have hd := dispatch_skip w t (idOfEv ev) (jidOfEv ev) hf hjid hm
  simp only [process_entry, as_bulk, hid, if_false, hd]
  simp [setLogged, opSet_nf, World.logLine, hf]

theorem replay_skip_aux (t : Nat) (ev : List RValue)
    (hid : ¬ (idOfEv ev).isEmpty = true)
    (hjid : ¬ (jidOfEv ev).isEmpty = true) :
    ∀ n (w : World) (last : String), w.faults = [] →
      ((mapGet w.store.strings
          (COMPLETED_KEY_NS ++ ":" ++ idOfEv ev)).isSome = true ∨
        memSet w.store.sets COMPLETED_KEY_NS (idOfEv ev) = true) →
      countSkips (replay t (RValue.array ev) n w last).fst.events
          = countSkips w.events + n ∧
      countSpawns (replay t (RValue.array ev) n w last).fst.events
          = countSpawns w.events ∧
      (replay t (RValue.array ev) n w last).fst.childq = w.childq ∧
      ((replay t (RValue.array ev) n w last).snd = last ∨
        (replay t (RValue.array ev) n w last).snd = idOfEv ev) ∧
      (mapGet (replay t (RValue.array ev) n w last).fst.store.strings LAST_ID_KEY
          = mapGet w.store.strings LAST_ID_KEY ∨
        mapGet (replay t (RValue.array ev) n w last).fst.store.strings LAST_ID_KEY
          = some (idOfEv ev)) := by
  intro n
  induction n with
  | zero =>
    intro w last hf hm
    exact ⟨rfl, rfl, rfl, Or.inl rfl, Or.inl rfl⟩
  | succ n ih =>
    intro w last hf hm
    have hstep := process_entry_skip w t last ev hf hid hjid hm
    have hrw : replay t (RValue.array ev) (n + 1) w last =
        replay t (RValue.array ev) n
          { w with
            store := { w.store with
              strings := mapSet w.store.strings LAST_ID_KEY (idOfEv ev) },
            events := Event.logLine "[handler.skip.completed]" :: w.events }
          (idOfEv ev) := by
      simp only [replay, hstep]
    set w' : World :=
      { w with
        store := { w.store with
          strings := mapSet w.store.strings LAST_ID_KEY (idOfEv ev) },
        events := Event.logLine "[handler.skip.completed]" :: w.events } with hw'
    have hf' : w'.faults = [] := hf
    have hm' : (mapGet w'.store.strings
          (COMPLETED_KEY_NS ++ ":" ++ idOfEv ev)).isSome = true ∨
        memSet w'.store.sets COMPLETED_KEY_NS (idOfEv ev) = true := by
      rcases hm with h | h
      · left
        rw [hw']
        show (mapGet (mapSet w.store.strings LAST_ID_KEY (idOfEv ev))
          (COMPLETED_KEY_NS ++ ":" ++ idOfEv ev)).isSome = true
        rw [mapGet_set_ne _ _ _ _ (lastIdKey_ne_completedKey (idOfEv ev))]
        exact h
      · right; exact h
    obtain ⟨c1, c2, c3, c4, c5⟩ := ih w' (idOfEv ev) hf' hm'
    rw [hrw]
    refine ⟨?_, ?_, c3, ?_, ?_⟩
    · rw [c1]
      have : countSkips w'.events = countSkips w.events + 1 := by
        rw [hw']
        simp [countSkips, List.countP_cons, isSkipLog]
      omega
    · rw [c2]
      rw [hw']
      simp [countSpawns, List.countP_cons, isSpawn]
    · rcases c4 with h | h
      · exact Or.inr h
      · exact Or.inr h
    · rcases c5 with h | h
      · right
        rw [h, hw']
        show mapGet (mapSet w.store.strings LAST_ID_KEY (idOfEv ev)) LAST_ID_KEY
          = some (idOfEv ev)
        exact mapGet_set_self _ _ _
      · exact Or.inr h

/-- **C6** (functional_correctness, confirmed).  For an entry whose
completion marker exists — as the per-entry key
`videogen:completed:<entry_id>` or as membership in the legacy set
`videogen:completed` — the Dispatcher logs a skip and advances the cursor
to that entry without consuming any child behaviour; replaying the entry
`n` times yields exactly `n` skip log events, zero new child spawns, an
untouched spawn oracle, and (for `n ≥ 1`) both the in-memory and the
persisted cursor at that entry's ID. -/
theorem completed_marker_replays_skip (w : World) (t : Nat) (last : String)
    (ev : List RValue) (n : Nat)
    (hf : w.faults = [])
    (hid : ¬ (idOfEv ev).isEmpty = true)
    (hjid : ¬ (jidOfEv ev).isEmpty = true)
    (hm : (mapGet w.store.strings
            (COMPLETED_KEY_NS ++ ":" ++ idOfEv ev)).isSome = true ∨
          memSet w.store.sets COMPLETED_KEY_NS (idOfEv ev) = true) :
    countSkips (replay t (RValue.array ev) n w last).fst.events
        = countSkips w.events + n ∧
    countSpawns (replay t (RValue.array ev) n w last).fst.events
        = countSpawns w.events ∧
    (replay t (RValue.array ev) n w last).fst.childq = w.childq ∧
    (0 < n → (replay t (RValue.array ev) n w last).snd = idOfEv ev ∧
      mapGet (replay t (RValue.array ev) n w last).fst.store.strings LAST_ID_KEY
        = some (idOfEv ev)) := by
  obtain ⟨c1, c2, c3, _c4, _c5⟩ := replay_skip_aux t ev hid hjid n w last hf hm
  refine ⟨c1, c2, c3, ?_⟩
  intro hn
  rcases n with _ | m
  · omega
  · have hstep := process_entry_skip w t last ev hf hid hjid hm
    have hrw : replay t (RValue.array ev) (m + 1) w last =
        replay t (RValue.array ev) m
          { w with
            store := { w.store with
              strings := mapSet w.store.strings LAST_ID_KEY (idOfEv ev) },
            events := Event.logLine "[handler.skip.completed]" :: w.events }
          (idOfEv ev) := by
      simp only [replay, hstep]
    set w' : World :=
      { w with
        store := { w.store with
          strings := mapSet w.store.strings LAST_ID_KEY (idOfEv ev) },
        events := Event.logLine "[handler.skip.completed]" :: w.events } with hw'
    have hf' : w'.faults = [] := hf
    have hm' : (mapGet w'.store.strings
          (COMPLETED_KEY_NS ++ ":" ++ idOfEv ev)).isSome = true ∨
        memSet w'.store.sets COMPLETED_KEY_NS (idOfEv ev) = true := by
      rcases hm with h | h
      · left
        rw [hw']
        show (mapGet (mapSet w.store.strings LAST_ID_KEY (idOfEv ev))
          (COMPLETED_KEY_NS ++ ":" ++ idOfEv ev)).isSome = true
        rw [mapGet_set_ne _ _ _ _ (lastIdKey_ne_completedKey (idOfEv ev))]
        exact h
      · right; exact h
    obtain ⟨_, _, _, d4, d5⟩ := replay_skip_aux t ev hid hjid m w' (idOfEv ev) hf' hm'
    rw [hrw]
    constructor
    · rcases d4 with h | h
      · exact h
      · exact h
    · rcases d5 with h | h
      · rw [h, hw']
        show mapGet (mapSet w.store.strings LAST_ID_KEY (idOfEv ev)) LAST_ID_KEY
          = some (idOfEv ev)
        exact mapGet_set_self _ _ _
      · exact h

/-- Witness for C6: two replays of the completed entry `2-0` (legacy-set
marker) produce two skip logs, no spawns, and cursor `2-0`. -/
theorem completed_marker_replays_skip_witness :
    countSkips (replay 600 (RValue.array [RValue.data "2-0",
        RValue.array [RValue.data "id", RValue.data "jobD"]]) 2
      { store := ⟨[], [], [("videogen:completed", "2-0")]⟩, faults := [],
        childq := [], events := [], nowMs := 0 } "1-0").fst.events = 2 ∧
    (replay 600 (RValue.array [RValue.data "2-0",
        RValue.array [RValue.data "id", RValue.data "jobD"]]) 2
      { store := ⟨[], [], [("videogen:completed", "2-0")]⟩, faults := [],
        childq := [], events := [], nowMs := 0 } "1-0").snd = "2-0" := by
  have h := completed_marker_replays_skip
    { store := ⟨[], [], [("videogen:completed", "2-0")]⟩, faults := [],
      childq := [], events := [], nowMs := 0 }
    600 "1-0"
    [RValue.data "2-0", RValue.array [RValue.data "id", RValue.data "jobD"]] 2
    rfl (by decide) (by decide) (Or.inr (by decide))
  refine ⟨?_, ?_⟩
  · rw [h.1]; rfl
  · exact ((h.2.2.2 (by omega)).1).trans (by decide)

theorem mark_processing_nf (w : World) (hf : w.faults = []) (eid jid : String) :
    mark_processing w eid jid = (Except.ok (),
      { w with store := { w.store with hashes := hashSet (hashSet w.store.hashes (PROCESSING_KEY_NS ++ ":" ++ eid) "jid" jid) (PROCESSING_KEY_NS ++ ":" ++ eid) "ts_ms" (natToString w.nowMs) } }) := by
  simp [mark_processing, opHSet_nf, opExpire_nf, hf]

theorem run_python_for_fail (w : World) (jid : String) (t : Nat) (c : ChildWait)
    (cq : List ChildWait)
    (hf : w.faults = [])
    (hru : hashGet w.store.hashes ("job:" ++ jid) "result_url" = none)
    (hc : w.childq = c :: cq)
    (hcf : childFails c) :
    (run_python_for w jid t).fst = Except.error (failMsg t c) ∧
    (run_python_for w jid t).snd.faults = [] ∧
    (run_python_for w jid t).snd.childq = cq ∧
    (run_python_for w jid t).snd.store.strings = w.store.strings ∧
    (run_python_for w jid t).snd.store.sets = w.store.sets ∧
    (run_python_for w jid t).snd.nowMs = w.nowMs ∧
    (c = ChildWait.timedOut → Event.kill ∈ (run_python_for w jid t).snd.events) := by
  have h1 : get_nonempty_hget w ("job:" ++ jid) "result_url" = (none, w) := by
    simp [get_nonempty_hget, opHGet_nf w hf, hru]
  rcases c with ⟨code, writes⟩ | _ | m | _
  · by_cases hcode : code = some 0
    · have hw : writes = [] := by
        rcases hcf with h | h
        · exact absurd hcode h
        · exact h
      subst hcode hw
      have h2 : run_python_for w jid t =
          (Except.error "no result_url set by runner",
            { w with childq := cq, events := Event.spawn jid :: w.events }) := by
        simp only [run_python_for, h1, popChild, hc]
        simp [World.event, opHGet_nf, hf, hru]
        decide
      rw [h2]
      exact ⟨by simp [failMsg], hf, rfl, rfl, rfl, rfl, by intro h; cases h⟩
    · have h2 : run_python_for w jid t =
          (Except.error (failMsg t (ChildWait.exited code writes)),
            { w with
              childq := cq,
              store := { w.store with hashes := writes ++ w.store.hashes },
              events := Event.spawn jid :: w.events }) := by
        simp only [run_python_for, h1, popChild, hc]
        simp [World.event, failMsg, hcode]
      rw [h2]
      exact ⟨rfl, hf, rfl, rfl, rfl, rfl, by intro h; cases h⟩
  · have h2 : run_python_for w jid t =
        (Except.error (failMsg t ChildWait.timedOut),
          { w with
            childq := cq,
            events := Event.kill :: Event.spawn jid :: w.events }) := by
      simp only [run_python_for, h1, popChild, hc]
      simp [World.event, failMsg]
    rw [h2]
    exact ⟨rfl, hf, rfl, rfl, rfl, rfl,
      fun _ => List.mem_cons_self _ _⟩
  · have h2 : run_python_for w jid t =
        (Except.error (failMsg t (ChildWait.waitErr m)),
          { w with
            childq := cq,
            events := Event.kill :: Event.spawn jid :: w.events }) := by
      simp only [run_python_for, h1, popChild, hc]
      simp [World.event, failMsg]
    rw [h2]
    exact ⟨rfl, hf, rfl, rfl, rfl, rfl, by intro h; cases h⟩
  · have h2 : run_python_for w jid t =
        (Except.error (failMsg t ChildWait.spawnFail),
          { w with childq := cq }) := by
      simp only [run_python_for, h1, popChild, hc]
      simp [failMsg]
    rw [h2]
    exact ⟨rfl, hf, rfl, rfl, rfl, rfl, by intro h; cases h⟩

theorem isEmpty_empty_str : "".isEmpty = true := by decide

theorem dispatch_fail (w : World) (t : Nat) (eid jid : String) (c : ChildWait)
    (cq : List ChildWait)
    (hf : w.faults = []) (hjid : ¬ jid.isEmpty = true)
    (hk : mapGet w.store.strings (COMPLETED_KEY_NS ++ ":" ++ eid) = none)
    (hs : memSet w.store.sets COMPLETED_KEY_NS eid = false)
    (hru : hashGet w.store.hashes ("job:" ++ jid) "result_url" = none)
    (hc : w.childq = c :: cq)
    (hcf : childFails c) :
    (dispatch w t eid jid).fst = Except.ok (false, true) ∧
    hashGet (dispatch w t eid jid).snd.store.hashes ("job:" ++ jid) "status"
      = some "failed" ∧
    hashGet (dispatch w t eid jid).snd.store.hashes ("job:" ++ jid) "error"
      = some (failMsg t c) ∧
    (dispatch w t eid jid).snd.store.strings = w.store.strings ∧
    (dispatch w t eid jid).snd.faults = [] ∧
    (dispatch w t eid jid).snd.childq = cq ∧
    (c = ChildWait.timedOut → Event.kill ∈ (dispatch w t eid jid).snd.events) := by
  have hic := is_completed_nf_false w eid jid hf hk hs
  have hru4 : hashGet (hashSet (hashSet (hashSet (hashSet w.store.hashes
      (PROCESSING_KEY_NS ++ ":" ++ eid) "jid" jid)
      (PROCESSING_KEY_NS ++ ":" ++ eid) "ts_ms" (natToString w.nowMs))
      ("job:" ++ jid) "status" "processing")
      ("job:" ++ jid) "processing_entry_id" eid) ("job:" ++ jid) "result_url"
      = none := by
    rw [hashGet_set_ne _ _ _ _ _ _ (pair_ne_of_snd_ne (by decide)),
      hashGet_set_ne _ _ _ _ _ _ (pair_ne_of_snd_ne (by decide)),
      hashGet_set_ne _ _ _ _ _ _ (pair_ne_of_snd_ne (by decide)),
      hashGet_set_ne _ _ _ _ _ _ (pair_ne_of_snd_ne (by decide)), hru]
  have hes : ∀ (h : List ((String × String) × String)) (v : String),
      hashGet (hashSet (hashSet h ("job:" ++ jid) "status" "failed")
        ("job:" ++ jid) "error" v) ("job:" ++ jid) "status" = some "failed" := by
    intro h v
    rw [hashGet_set_ne _ _ _ _ _ _ (pair_ne_of_snd_ne (by decide)),
      hashGet_set_self]
  rcases c with ⟨code, writes⟩ | _ | m | _
  · by_cases hcode : code = some 0
    · have hw : writes = [] := by
        rcases hcf with h | h
        · exact absurd hcode h
        · exact h
      subst hcode hw
      simp [dispatch, hsetLogged, hjid, hic, mark_processing, opHSet, opExpire, popFault,
        run_python_for, get_nonempty_hget, opHGet, Option.filter, popChild,
        World.logLine, World.event, hf, hc, hru4, failMsg, hashGet_set_self, hes,
        isEmpty_empty_str]
    · simp [dispatch, hsetLogged, hjid, hic, mark_processing, opHSet, opExpire, popFault,
        run_python_for, get_nonempty_hget, opHGet, Option.filter, popChild,
        World.logLine, World.event, hf, hc, hru4, failMsg, hcode,
        hashGet_set_self, hes, isEmpty_empty_str]
  · simp [dispatch, hsetLogged, hjid, hic, mark_processing, opHSet, opExpire, popFault,
      run_python_for, get_nonempty_hget, opHGet, Option.filter, popChild,
      World.logLine, World.event, hf, hc, hru4, failMsg, hashGet_set_self, hes,
        isEmpty_empty_str]
  · simp [dispatch, hsetLogged, hjid, hic, mark_processing, opHSet, opExpire, popFault,
      run_python_for, get_nonempty_hget, opHGet, Option.filter, popChild,
      World.logLine, World.event, hf, hc, hru4, failMsg, hashGet_set_self, hes,
        isEmpty_empty_str]
  · simp [dispatch, hsetLogged, hjid, hic, mark_processing, opHSet, opExpire, popFault,
      run_python_for, get_nonempty_hget, opHGet, Option.filter, popChild,
      World.logLine, World.event, hf, hc, hru4, failMsg, hashGet_set_self, hes,
        isEmpty_empty_str]

/-- **C7** (functional_correctness, confirmed).  When the child runner is
still running as the soft timeout `RUNNER_TIMEOUT_S` elapses
(`ChildWait.timedOut`), the worker kills the child (a kill event is
emitted), the dispatch fails and records
`"python runner timeout after {t}s"` as `job:{jid}.error` with status
`failed`, and the advance flag is `false` with the persisted-cursor
strings untouched: the cursor is not advanced for that entry. -/
theorem runner_timeout_fails_dispatch (w : World) (t : Nat) (eid jid : String)
    (cq : List ChildWait)
    (hf : w.faults = []) (hjid : ¬ jid.isEmpty = true)
    (hk : mapGet w.store.strings (COMPLETED_KEY_NS ++ ":" ++ eid) = none)
    (hs : memSet w.store.sets COMPLETED_KEY_NS eid = false)
    (hru : hashGet w.store.hashes ("job:" ++ jid) "result_url" = none)
    (hc : w.childq = ChildWait.timedOut :: cq) :
    (dispatch w t eid jid).fst = Except.ok (false, true) ∧
    Event.kill ∈ (dispatch w t eid jid).snd.events ∧
    hashGet (dispatch w t eid jid).snd.store.hashes ("job:" ++ jid) "error"
      = some ("python runner timeout after " ++ natToString t ++ "s") ∧
    hashGet (dispatch w t eid jid).snd.store.hashes ("job:" ++ jid) "status"
      = some "failed" ∧
    (dispatch w t eid jid).snd.store.strings = w.store.strings := by
  obtain ⟨d1, d2, d3, d4, _d5, _d6, d7⟩ :=
    dispatch_fail w t eid jid ChildWait.timedOut cq hf hjid hk hs hru hc trivial
  exact ⟨d1, d7 rfl, d3, d2, d4⟩

/-- Witness for C7 at the default 600-second timeout: the recorded error
is literally `"python runner timeout after 600s"`. -/
theorem runner_timeout_fails_dispatch_witness :
    (dispatch
      { store := ⟨[], [], []⟩, faults := [], childq := [ChildWait.timedOut],
        events := [], nowMs := 0 } 600 "3-0" "jobB").fst
      = Except.ok (false, true) ∧
    hashGet (dispatch
      { store := ⟨[], [], []⟩, faults := [], childq := [ChildWait.timedOut],
        events := [], nowMs := 0 } 600 "3-0" "jobB").snd.store.hashes
      "job:jobB" "error" = some "python runner timeout after 600s" := by
  obtain ⟨d1, _d2, d3, _⟩ := runner_timeout_fails_dispatch
    { store := ⟨[], [], []⟩, faults := [], childq := [ChildWait.timedOut],
      events := [], nowMs := 0 }
    600 "3-0" "jobB" [] rfl (by decide) (by decide) (by decide) (by decide) rfl
  exact ⟨d1, d3.trans (by decide)⟩

theorem process_entry_fail (w : World) (t : Nat) (last : String) (ev : List RValue)
    (c : ChildWait) (cq : List ChildWait)
    (hf : w.faults = []) (hid : ¬ (idOfEv ev).isEmpty = true)
    (hjid : ¬ (jidOfEv ev).isEmpty = true)
    (hk : mapGet w.store.strings (COMPLETED_KEY_NS ++ ":" ++ idOfEv ev) = none)
    (hs : memSet w.store.sets COMPLETED_KEY_NS (idOfEv ev) = false)
    (hru : hashGet w.store.hashes ("job:" ++ jidOfEv ev) "result_url" = none)
    (hc : w.childq = c :: cq)
    (hcf : childFails c) :
    process_entry w t last (RValue.array ev) =
      (Except.ok (last, false, true),
        (dispatch w t (idOfEv ev) (jidOfEv ev)).snd) := by
  obtain ⟨d1, _, _, _, _, _, _⟩ :=
    dispatch_fail w t (idOfEv ev) (jidOfEv ev) c cq hf hjid hk hs hru hc hcf
  rcases hD : dispatch w t (idOfEv ev) (jidOfEv ev) with ⟨res, W⟩
  rw [hD] at d1
  have hres : res = Except.ok (false, true) := d1
  subst hres
  simp [process_entry, as_bulk, hid, hD]

/-- **C2** (error_handling, confirmed).  For a decoded entry with a job id
whose child-runner dispatch fails (`childFails`: non-zero exit, timeout,
`try_wait` error, failed spawn, or exit 0 without writing `result_url`),
one loop iteration: leaves the in-memory cursor at its old value and the
persisted-cursor strings untouched, records `job:{jid}.status = "failed"`
and `job:{jid}.error = <the failure message>`, sleeps
`RETRY_BACKOFF_ON_ERROR_MS` before the next read (the two head events are
the 250 ms backoff and the 25 ms idle sleep), and breaks the batch: the
iteration is literally equal to one whose batch held only the failing
entry. -/
theorem child_failure_marks_failed_no_advance (w : World) (t : Nat)
    (sn last : String) (tm te lc : Nat) (sname : RValue) (ev : List RValue)
    (rest : List RValue) (c : ChildWait) (cq : List ChildWait)
    (hf : w.faults = []) (hid : ¬ (idOfEv ev).isEmpty = true)
    (hjid : ¬ (jidOfEv ev).isEmpty = true)
    (hk : mapGet w.store.strings (COMPLETED_KEY_NS ++ ":" ++ idOfEv ev) = none)
    (hs : memSet w.store.sets COMPLETED_KEY_NS (idOfEv ev) = false)
    (hru : hashGet w.store.hashes ("job:" ++ jidOfEv ev) "result_url" = none)
    (hc : w.childq = c :: cq)
    (hcf : childFails c)
    (hlc : ¬ lc % te = 0) :
    (loop_iter w t sn tm te lc last
        (Except.ok (RValue.array [RValue.array [sname,
          RValue.array (RValue.array ev :: rest)]]))).fst = Except.ok last ∧
    hashGet (loop_iter w t sn tm te lc last
        (Except.ok (RValue.array [RValue.array [sname,
          RValue.array (RValue.array ev :: rest)]]))).snd.store.hashes
      ("job:" ++ jidOfEv ev) "status" = some "failed" ∧
    hashGet (loop_iter w t sn tm te lc last
        (Except.ok (RValue.array [RValue.array [sname,
          RValue.array (RValue.array ev :: rest)]]))).snd.store.hashes
      ("job:" ++ jidOfEv ev) "error" = some (failMsg t c) ∧
    (loop_iter w t sn tm te lc last
        (Except.ok (RValue.array [RValue.array [sname,
          RValue.array (RValue.array ev :: rest)]]))).snd.store.strings
      = w.store.strings ∧
    (∃ es, (loop_iter w t sn tm te lc last
        (Except.ok (RValue.array [RValue.array [sname,
          RValue.array (RValue.array ev :: rest)]]))).snd.events
      = Event.sleep RETRY_BACKOFF_ON_ERROR_MS :: Event.sleep 25 :: es) ∧
    loop_iter w t sn tm te lc last
        (Except.ok (RValue.array [RValue.array [sname,
          RValue.array (RValue.array ev :: rest)]]))
      = loop_iter w t sn tm te lc last
        (Except.ok (RValue.array [RValue.array [sname,
          RValue.array [RValue.array ev]]])) := by
  obtain ⟨_, d2, d3, d4, _, _, _⟩ :=
    dispatch_fail w t (idOfEv ev) (jidOfEv ev) c cq hf hjid hk hs hru hc hcf
  have hpe := process_entry_fail w t last ev c cq hf hid hjid hk hs hru hc hcf
  have hpes : process_entries w t last false (RValue.array ev :: rest) =
      (Except.ok (last, false, true),
        (dispatch w t (idOfEv ev) (jidOfEv ev)).snd) := by
    simp [process_entries, hpe]
  have hpes1 : process_entries w t last false [RValue.array ev] =
      (Except.ok (last, false, true),
        (dispatch w t (idOfEv ev) (jidOfEv ev)).snd) := by
    simp [process_entries, hpe]
  have hloop : loop_iter w t sn tm te lc last
      (Except.ok (RValue.array [RValue.array [sname,
        RValue.array (RValue.array ev :: rest)]])) =
      (Except.ok last,
        { (dispatch w t (idOfEv ev) (jidOfEv ev)).snd with
          events := Event.sleep RETRY_BACKOFF_ON_ERROR_MS :: Event.sleep 25 ::
            (dispatch w t (idOfEv ev) (jidOfEv ev)).snd.events }) := by
    simp [loop_iter, process_streams, as_bulk, hpes, World.event, hlc]
  have hloop1 : loop_iter w t sn tm te lc last
      (Except.ok (RValue.array [RValue.array [sname,
        RValue.array [RValue.array ev]]])) =
      (Except.ok last,
        { (dispatch w t (idOfEv ev) (jidOfEv ev)).snd with
          events := Event.sleep RETRY_BACKOFF_ON_ERROR_MS :: Event.sleep 25 ::
            (dispatch w t (idOfEv ev) (jidOfEv ev)).snd.events }) := by
    simp [loop_iter, process_streams, as_bulk, hpes1, World.event, hlc]
  rw [hloop]
  exact ⟨rfl, d2, d3, d4, ⟨(dispatch w t (idOfEv ev) (jidOfEv ev)).snd.events, rfl⟩,
    hloop1.symm⟩

/-- Witness for C2: a concrete batch of two entries whose first entry's
child exits with status 2; the job is marked failed with the runner's
message, the cursor stays `"1-0"`, and the batch is cut short. -/
theorem child_failure_marks_failed_no_advance_witness :
    (loop_iter
      { store := ⟨[("videogen:last_id", "1-0")], [], []⟩, faults := [],
        childq := [ChildWait.exited (some 2) []], events := [], nowMs := 0 }
      600 "videogen:jobs" 120 80 1 "1-0"
      (Except.ok (RValue.array [RValue.array [RValue.data "videogen:jobs",
        RValue.array [RValue.array [RValue.data "2-0",
            RValue.array [RValue.data "id", RValue.data "jobE"]],
          RValue.array [RValue.data "3-0",
            RValue.array [RValue.data "id", RValue.data "jobF"]]]]]))).fst
      = Except.ok "1-0" ∧
    hashGet (loop_iter
      { store := ⟨[("videogen:last_id", "1-0")], [], []⟩, faults := [],
        childq := [ChildWait.exited (some 2) []], events := [], nowMs := 0 }
      600 "videogen:jobs" 120 80 1 "1-0"
      (Except.ok (RValue.array [RValue.array [RValue.data "videogen:jobs",
        RValue.array [RValue.array [RValue.data "2-0",
            RValue.array [RValue.data "id", RValue.data "jobE"]],
          RValue.array [RValue.data "3-0",
            RValue.array [RValue.data "id", RValue.data "jobF"]]]]]))).snd.store.hashes
      "job:jobE" "status" = some "failed" := by
  obtain ⟨h1, h2, _⟩ := child_failure_marks_failed_no_advance
    { store := ⟨[("videogen:last_id", "1-0")], [], []⟩, faults := [],
      childq := [ChildWait.exited (some 2) []], events := [], nowMs := 0 }
    600 "videogen:jobs" "1-0" 120 80 1 (RValue.data "videogen:jobs")
    [RValue.data "2-0", RValue.array [RValue.data "id", RValue.data "jobE"]]
    [RValue.array [RValue.data "3-0",
      RValue.array [RValue.data "id", RValue.data "jobF"]]]
    (ChildWait.exited (some 2) []) []
    rfl (by decide) (by decide) (by decide) (by decide) (by decide) rfl
    (Or.inl (by decide)) (by decide)
  exact ⟨h1, h2⟩

/-! ## Frame lemmas: no dispatch path ever writes the cursor key

Used for cursor monotonicity: the only string-key writes below
`process_entry` are the completion marker (`SET EX` in `mark_completed`)
and, at advance time, `LAST_ID_KEY` itself. -/

theorem popChild_store (w : World) : (popChild w).snd.store = w.store := by
  rcases hc : w.childq with _ | ⟨c, cs⟩ <;> simp [popChild, hc]

theorem opExists_store (w : World) (k : String) :
    (opExists w k).snd.store = w.store := by
  rcases hf : w.faults with _ | ⟨b, fs⟩
  · simp [opExists, popFault, hf]
  · cases b <;> simp [opExists, popFault, hf]

theorem opSismember_store (w : World) (k m : String) :
    (opSismember w k m).snd.store = w.store := by
  rcases hf : w.faults with _ | ⟨b, fs⟩
  · simp [opSismember, popFault, hf]
  · cases b <;> simp [opSismember, popFault, hf]

theorem opHGet_store (w : World) (k f : String) :
    (opHGet w k f).snd.store = w.store := by
  rcases hf : w.faults with _ | ⟨b, fs⟩
  · simp [opHGet, popFault, hf]
  · cases b <;> simp [opHGet, popFault, hf]

theorem opExpire_store (w : World) (k : String) :
    (opExpire w k).snd.store = w.store := by
  rcases hf : w.faults with _ | ⟨b, fs⟩
  · simp [opExpire, popFault, hf]
  · cases b <;> simp [opExpire, popFault, hf]

theorem opHSet_strings (w : World) (k f v : String) :
    (opHSet w k f v).snd.store.strings = w.store.strings := by
  rcases hf : w.faults with _ | ⟨b, fs⟩
  · simp [opHSet, popFault, hf]
  · cases b <;> simp [opHSet, popFault, hf]

theorem opDel_strings (w : World) (k : String) :
    (opDel w k).snd.store.strings = w.store.strings := by
  rcases hf : w.faults with _ | ⟨b, fs⟩
  · simp [opDel, popFault, hf]
  · cases b <;> simp [opDel, popFault, hf]

theorem opSetEx_lastid (w : World) (eid v : String) :
    mapGet (opSetEx w (COMPLETED_KEY_NS ++ ":" ++ eid) v).snd.store.strings
        LAST_ID_KEY
      = mapGet w.store.strings LAST_ID_KEY := by
  rcases hf : w.faults with _ | ⟨b, fs⟩
  · simp only [opSetEx, popFault, hf]
    simp [mapGet_set_ne _ _ _ _ (completedKey_ne_lastIdKey eid)]
  · cases b
    · simp only [opSetEx, popFault, hf]
      simp [mapGet_set_ne _ _ _ _ (completedKey_ne_lastIdKey eid)]
    · simp [opSetEx, popFault, hf]

theorem is_completed_store (w : World) (eid jid : String) :
    (is_completed w eid jid).snd.store = w.store := by
  unfold is_completed
  rcases h1 : opExists w (COMPLETED_KEY_NS ++ ":" ++ eid) with ⟨r1, w1⟩
  have e1 : w1.store = w.store := by
    have h2 := opExists_store w (COMPLETED_KEY_NS ++ ":" ++ eid)
    rw [h1] at h2; exact h2
  rcases r1 with e | b
  · exact e1
  · cases b
    · have h3 := opSismember_store w1 COMPLETED_KEY_NS eid
      exact h3.trans e1
    · exact e1

theorem mark_processing_strings (w : World) (eid jid : String) :
    (mark_processing w eid jid).snd.store.strings = w.store.strings := by
  unfold mark_processing
  split
  · next e w1 heq =>
    have h := opHSet_strings w (PROCESSING_KEY_NS ++ ":" ++ eid) "jid" jid
    rw [heq] at h
    exact h
  · next u w1 heq =>
    have h := opHSet_strings w (PROCESSING_KEY_NS ++ ":" ++ eid) "jid" jid
    rw [heq] at h
    split
    · next e2 w2 heq2 =>
      have h2 := opHSet_strings w1 (PROCESSING_KEY_NS ++ ":" ++ eid) "ts_ms"
        (natToString w1.nowMs)
      rw [heq2] at h2
      exact h2.trans h
    · next u2 w2 heq2 =>
      have h2 := opHSet_strings w1 (PROCESSING_KEY_NS ++ ":" ++ eid) "ts_ms"
        (natToString w1.nowMs)
      rw [heq2] at h2
      split
      · next e3 w3 heq3 =>
        have h3 := opExpire_store w2 (PROCESSING_KEY_NS ++ ":" ++ eid)
        rw [heq3] at h3
        exact (congrArg Store.strings h3).trans (h2.trans h)
      · next u3 w3 heq3 =>
        have h3 := opExpire_store w2 (PROCESSING_KEY_NS ++ ":" ++ eid)
        rw [heq3] at h3
        exact (congrArg Store.strings h3).trans (h2.trans h)

theorem get_nonempty_hget_store (w : World) (k f : String) :
    (get_nonempty_hget w k f).snd.store = w.store := by
  unfold get_nonempty_hget
  rcases h1 : opHGet w k f with ⟨r1, w1⟩
  have e1 : w1.store = w.store := by
    have h := opHGet_store w k f
    rw [h1] at h; exact h
  rcases r1 with e | v
  · exact e1
  · exact e1

theorem mark_completed_lastid (w : World) (eid jid : String) :
    mapGet (mark_completed w eid jid).snd.store.strings LAST_ID_KEY
      = mapGet w.store.strings LAST_ID_KEY := by
  unfold mark_completed
  split
  · next e w1 heq =>
    have h := opSetEx_lastid w eid (natToString w.nowMs)
    rw [heq] at h
    exact h
  · next u w1 heq =>
    have h := opSetEx_lastid w eid (natToString w.nowMs)
    rw [heq] at h
    split
    · next e2 w2 heq2 =>
      have h2 := opDel_strings w1 (PROCESSING_KEY_NS ++ ":" ++ eid)
      rw [heq2] at h2
      show mapGet w2.store.strings LAST_ID_KEY = mapGet w.store.strings LAST_ID_KEY
      rw [h2]
      exact h
    · next u2 w2 heq2 =>
      have h2 := opDel_strings w1 (PROCESSING_KEY_NS ++ ":" ++ eid)
      rw [heq2] at h2
      show mapGet w2.store.strings LAST_ID_KEY = mapGet w.store.strings LAST_ID_KEY
      rw [h2]
      exact h

theorem opHGet_strings (w : World) (k f : String) :
    (opHGet w k f).snd.store.strings = w.store.strings :=
  congrArg Store.strings (opHGet_store w k f)

theorem run_python_for_strings (w : World) (jid : String) (t : Nat) :
    (run_python_for w jid t).snd.store.strings = w.store.strings := by
  unfold run_python_for
  split
  · next url w1 heq =>
    have h := get_nonempty_hget_store w ("job:" ++ jid) "result_url"
    rw [heq] at h
    exact congrArg Store.strings h
  · next w1 heq =>
    have h : w1.store = w.store := by
      have h0 := get_nonempty_hget_store w ("job:" ++ jid) "result_url"
      rw [heq] at h0
      exact h0
    split
    · next _pair child w2 heq2 =>
      have h2 : w2.store = w.store := by
        have hpc := popChild_store w1
        rw [heq2] at hpc
        exact hpc.trans h
      have h2s : w2.store.strings = w.store.strings := congrArg Store.strings h2
      rcases child with ⟨code, ws⟩ | _ | m | _
      · dsimp only
        by_cases hcode : code = some 0
        · rw [if_pos hcode]
          split
          · next e w4 heq4 =>
            have h0 := congrArg (fun p => (p.snd).store.strings) heq4
            dsimp only at h0
            rw [opHGet_strings] at h0
            exact h0.symm.trans h2s
          · next v w4 heq4 =>
            have h0 := congrArg (fun p => (p.snd).store.strings) heq4
            dsimp only at h0
            rw [opHGet_strings] at h0
            by_cases hurl : (v.getD "").isEmpty = true
            · rw [if_pos hurl]
              exact h0.symm.trans h2s
            · rw [if_neg hurl]
              exact h0.symm.trans h2s
        · rw [if_neg hcode]
          exact h2s
      · exact h2s
      · exact h2s
      · exact h2s

theorem strings_of_eq {α : Type} {p : α × World} {r : α} {w' : World}
    {s : List (String × String)}
    (h : p = (r, w')) (hs : p.snd.store.strings = s) :
    w'.store.strings = s := by
  rw [h] at hs
  exact hs

theorem mg_of_strings {s1 s2 : List (String × String)} (h : s1 = s2) :
    mapGet s1 LAST_ID_KEY = mapGet s2 LAST_ID_KEY := by rw [h]

theorem hsetLogged_strings (w : World) (k f v tag : String) :
    (hsetLogged w k f v tag).store.strings = w.store.strings := by
  unfold hsetLogged
  split
  · next e w1 heq =>
    have h := opHSet_strings w k f v
    rw [heq] at h
    exact h
  · next u w1 heq =>
    have h := opHSet_strings w k f v
    rw [heq] at h
    exact h

theorem dispatch_lastid (w : World) (t : Nat) (eid jid : String) :
    mapGet (dispatch w t eid jid).snd.store.strings LAST_ID_KEY
      = mapGet w.store.strings LAST_ID_KEY := by
  unfold dispatch
  split
  · rfl
  · split
    · next e w1 heq =>
      exact mg_of_strings (strings_of_eq heq
        (congrArg Store.strings (is_completed_store w eid jid)))
    · next w1 heq =>
      show mapGet w1.store.strings LAST_ID_KEY = mapGet w.store.strings LAST_ID_KEY
      exact mg_of_strings (strings_of_eq heq
        (congrArg Store.strings (is_completed_store w eid jid)))
    · next w1 heq =>
      have e1 : mapGet w1.store.strings LAST_ID_KEY
          = mapGet w.store.strings LAST_ID_KEY :=
        mg_of_strings (strings_of_eq heq
          (congrArg Store.strings (is_completed_store w eid jid)))
      split
      · next e2 w2 heq2 =>
        show mapGet w2.store.strings LAST_ID_KEY = mapGet w.store.strings LAST_ID_KEY
        exact (mg_of_strings (strings_of_eq heq2
          (mark_processing_strings w1 eid jid))).trans e1
      · next u2 w2 heq2 =>
        have e2 : mapGet w2.store.strings LAST_ID_KEY
            = mapGet w.store.strings LAST_ID_KEY :=
          (mg_of_strings (strings_of_eq heq2
            (mark_processing_strings w1 eid jid))).trans e1
        have eh : (hsetLogged (hsetLogged w2 ("job:" ++ jid) "status" "processing"
              "[job.status.mark.error]")
            ("job:" ++ jid) "processing_entry_id" eid
            "[job.processing_entry.mark.error]").store.strings
            = w2.store.strings :=
          (hsetLogged_strings _ _ _ _ _).trans (hsetLogged_strings _ _ _ _ _)
        split
        · next u5 w5 heq5 =>
          have e5 : mapGet w5.store.strings LAST_ID_KEY
              = mapGet w.store.strings LAST_ID_KEY :=
            (mg_of_strings (strings_of_eq heq5
              ((run_python_for_strings _ jid t).trans eh))).trans e2
          show mapGet (hsetLogged (mark_completed w5 eid jid).snd
              ("job:" ++ jid) "status" "completed"
              "[job.status.completed.error]").store.strings LAST_ID_KEY
            = mapGet w.store.strings LAST_ID_KEY
          exact (mg_of_strings (hsetLogged_strings _ _ _ _ _)).trans
            ((mark_completed_lastid w5 eid jid).trans e5)
        · next e5 w5 heq5 =>
          have e5' : mapGet w5.store.strings LAST_ID_KEY
              = mapGet w.store.strings LAST_ID_KEY :=
            (mg_of_strings (strings_of_eq heq5
              ((run_python_for_strings _ jid t).trans eh))).trans e2
          show mapGet (hsetLogged
              (hsetLogged (w5.logLine "[handler.error]")
                ("job:" ++ jid) "status" "failed" "[job.status.failed.error]")
              ("job:" ++ jid) "error" e5 "[job.error.write.error]").store.strings
              LAST_ID_KEY
            = mapGet w.store.strings LAST_ID_KEY
          exact (mg_of_strings ((hsetLogged_strings _ _ _ _ _).trans
            (hsetLogged_strings _ _ _ _ _))).trans e5'

theorem opSet_error_store (w : World) (k v e : String) (w1 : World)
    (h : opSet w k v = (Except.error e, w1)) : w1.store = w.store := by
  rcases hf : w.faults with _ | ⟨b, fs⟩
  · rw [opSet_nf w hf] at h
    cases h
  · cases b
    · rw [show opSet w k v = (Except.ok (), { w with faults := fs, store := { w.store with strings := mapSet w.store.strings k v } }) from by simp [opSet, popFault_cons w false fs hf]] at h
      cases h
    · rw [show opSet w k v = (Except.error brokerErr, { w with faults := fs }) from by simp [opSet, popFault_cons w true fs hf]] at h
      cases h
      rfl

theorem opSet_ok_strings (w : World) (k v : String) (u : Unit) (w1 : World)
    (h : opSet w k v = (Except.ok u, w1)) :
    w1.store.strings = mapSet w.store.strings k v := by
  rcases hf : w.faults with _ | ⟨b, fs⟩
  · rw [opSet_nf w hf] at h
    cases h
    rfl
  · cases b
    · rw [show opSet w k v = (Except.ok (), { w with faults := fs, store := { w.store with strings := mapSet w.store.strings k v } }) from by simp [opSet, popFault_cons w false fs hf]] at h
      cases h
      rfl
    · rw [show opSet w k v = (Except.error brokerErr, { w with faults := fs }) from by simp [opSet, popFault_cons w true fs hf]] at h
      cases h

theorem setLogged_lastid (w : World) (v tag : String) :
    mapGet (setLogged w LAST_ID_KEY v tag).store.strings LAST_ID_KEY
        = mapGet w.store.strings LAST_ID_KEY ∨
    mapGet (setLogged w LAST_ID_KEY v tag).store.strings LAST_ID_KEY = some v := by
  unfold setLogged
  split
  · next e w1 heq =>
    left
    show mapGet w1.store.strings LAST_ID_KEY = mapGet w.store.strings LAST_ID_KEY
    rw [opSet_error_store w LAST_ID_KEY v e w1 heq]
  · next u w1 heq =>
    right
    show mapGet w1.store.strings LAST_ID_KEY = some v
    rw [opSet_ok_strings w LAST_ID_KEY v u w1 heq]
    exact mapGet_set_self _ _ _

theorem entryIdOf_of_bulk (e : RValue) (ev : List RValue)
    (h : as_bulk e = some ev) : entryIdOf e = idOfEv ev := by
  unfold entryIdOf
  rw [h]

theorem process_entry_cursor (w : World) (t : Nat) (last : String) (e : RValue)
    (r : String × Bool × Bool) (w' : World)
    (h : process_entry w t last e = (Except.ok r, w')) :
    (r.1 = last ∨ r.1 = entryIdOf e) ∧
    (mapGet w'.store.strings LAST_ID_KEY = mapGet w.store.strings LAST_ID_KEY ∨
     mapGet w'.store.strings LAST_ID_KEY = some (entryIdOf e)) := by
  unfold process_entry at h
  split at h
  · cases h
    exact ⟨Or.inl rfl, Or.inl rfl⟩
  · next ev heqb =>
    dsimp only at h
    split at h
    · cases h
      exact ⟨Or.inl rfl, Or.inl rfl⟩
    · split at h
      · cases h
      · next advance fatal wd heqd =>
        have hdl := dispatch_lastid w t (idOfEv ev) (jidOfEv ev)
        rw [heqd] at hdl
        split at h
        · cases h
          rw [entryIdOf_of_bulk e ev heqb]
          refine ⟨Or.inr rfl, ?_⟩
          rcases setLogged_lastid wd (idOfEv ev) "[last_id.persist.error]" with
            hl | hl
          · exact Or.inl (hl.trans hdl)
          · exact Or.inr hl
        · cases h
          exact ⟨Or.inl rfl, Or.inl hdl⟩

theorem process_entries_cursor : ∀ (es : List RValue) (w : World) (t : Nat)
    (last : String) (adv : Bool) (r : String × Bool × Bool) (w' : World),
    process_entries w t last adv es = (Except.ok r, w') →
    (r.1 = last ∨ r.1 ∈ es.map entryIdOf) ∧
    (mapGet w'.store.strings LAST_ID_KEY = mapGet w.store.strings LAST_ID_KEY ∨
     ∃ i ∈ es.map entryIdOf, mapGet w'.store.strings LAST_ID_KEY = some i) := by
  intro es
  induction es with
  | nil =>
    intro w t last adv r w' h
    unfold process_entries at h
    cases h
    exact ⟨Or.inl rfl, Or.inl rfl⟩
  | cons e rest ih =>
    intro w t last adv r w' h
    unfold process_entries at h
    rcases hpe : process_entry w t last e with ⟨r1, w1⟩
    rw [hpe] at h
    rcases r1 with err | r1
    · cases h
    · obtain ⟨hc1, hc2⟩ := process_entry_cursor w t last e r1 w1 hpe
      rcases r1 with ⟨lid, advE, fatal⟩
      dsimp only at h
      cases fatal
      · rw [if_neg (by simp)] at h
        obtain ⟨hd1, hd2⟩ := ih w1 t lid (adv || advE) r w' h
        constructor
        · rcases hd1 with h1 | h1
          · rw [h1]
            rcases hc1 with h2 | h2
            · exact Or.inl h2
            · exact Or.inr (by rw [show lid = entryIdOf e from h2]; exact List.mem_cons_self _ _)
          · exact Or.inr (List.mem_cons_of_mem _ h1)
        · rcases hd2 with h1 | h1
          · rw [h1]
            rcases hc2 with h2 | h2
            · exact Or.inl h2
            · exact Or.inr ⟨entryIdOf e, List.mem_cons_self _ _, h2⟩
          · obtain ⟨i, hi, hv⟩ := h1
            exact Or.inr ⟨i, List.mem_cons_of_mem _ hi, hv⟩
      · rw [if_pos rfl] at h
        cases h
        constructor
        · rcases hc1 with h2 | h2
          · exact Or.inl h2
          · exact Or.inr (by rw [show lid = entryIdOf e from h2]; exact List.mem_cons_self _ _)
        · rcases hc2 with h2 | h2
          · exact Or.inl h2
          · exact Or.inr ⟨entryIdOf e, List.mem_cons_self _ _, h2⟩

theorem process_streams_cursor : ∀ (streams : List RValue) (w : World) (t : Nat)
    (last : String) (adv : Bool) (r : String × Bool × Bool) (w' : World),
    process_streams w t last adv streams = (Except.ok r, w') →
    (r.1 = last ∨ r.1 ∈ (streams.map streamIds).flatten) ∧
    (mapGet w'.store.strings LAST_ID_KEY = mapGet w.store.strings LAST_ID_KEY ∨
     ∃ i ∈ (streams.map streamIds).flatten,
       mapGet w'.store.strings LAST_ID_KEY = some i) := by
  intro streams
  induction streams with
  | nil =>
    intro w t last adv r w' h
    unfold process_streams at h
    cases h
    exact ⟨Or.inl rfl, Or.inl rfl⟩
  | cons s rest ih =>
    intro w t last adv r w' h
    unfold process_streams at h
    split at h
    · next sname entries heqs =>
      split at h
      · next es heqe =>
        rcases hpe : process_entries w t last adv es with ⟨r1, w1⟩
        rw [hpe] at h
        rcases r1 with err | r1
        · cases h
        · have hsid : streamIds s = es.map entryIdOf := by
            unfold streamIds
            rw [heqs]
            show (match as_bulk entries with
              | some es => List.map entryIdOf es
              | none => []) = List.map entryIdOf es
            rw [heqe]
          obtain ⟨hc1, hc2⟩ := process_entries_cursor es w t last adv r1 w1 hpe
          rcases r1 with ⟨lid, advA, hadErr⟩
          dsimp only at h
          cases hadErr
          · rw [if_neg (by simp)] at h
            obtain ⟨hd1, hd2⟩ := ih w1 t lid advA r w' h
            constructor
            · rcases hd1 with h1 | h1
              · rw [h1]
                rcases hc1 with h2 | h2
                · exact Or.inl h2
                · refine Or.inr ?_
                  simp only [List.map_cons, List.flatten_cons, List.mem_append]
                  exact Or.inl (by rw [hsid]; exact h2)
              · refine Or.inr ?_
                simp only [List.map_cons, List.flatten_cons, List.mem_append]
                exact Or.inr h1
            · rcases hd2 with h1 | h1
              · rw [h1]
                rcases hc2 with h2 | h2
                · exact Or.inl h2
                · obtain ⟨i, hi, hv⟩ := h2
                  refine Or.inr ⟨i, ?_, hv⟩
                  simp only [List.map_cons, List.flatten_cons, List.mem_append]
                  exact Or.inl (by rw [hsid]; exact hi)
              · obtain ⟨i, hi, hv⟩ := h1
                refine Or.inr ⟨i, ?_, hv⟩
                simp only [List.map_cons, List.flatten_cons, List.mem_append]
                exact Or.inr hi
          · rw [if_pos rfl] at h
            cases h
            constructor
            · rcases hc1 with h2 | h2
              · exact Or.inl h2
              · refine Or.inr ?_
                simp only [List.map_cons, List.flatten_cons, List.mem_append]
                exact Or.inl (by rw [hsid]; exact h2)
            · rcases hc2 with h2 | h2
              · exact Or.inl h2
              · obtain ⟨i, hi, hv⟩ := h2
                refine Or.inr ⟨i, ?_, hv⟩
                simp only [List.map_cons, List.flatten_cons, List.mem_append]
                exact Or.inl (by rw [hsid]; exact hi)
      · next heqe =>
        obtain ⟨hd1, hd2⟩ := ih w t last adv r w' h
        have hsid : streamIds s = [] := by
          unfold streamIds
          rw [heqs]
          show (match as_bulk entries with
            | some es => List.map entryIdOf es
            | none => []) = ([] : List String)
          rw [heqe]
        constructor
        · rcases hd1 with h1 | h1
          · exact Or.inl h1
          · refine Or.inr ?_
            simp only [List.map_cons, List.flatten_cons, List.mem_append]
            exact Or.inr h1
        · rcases hd2 with h1 | h1
          · exact Or.inl h1
          · obtain ⟨i, hi, hv⟩ := h1
            refine Or.inr ⟨i, ?_, hv⟩
            simp only [List.map_cons, List.flatten_cons, List.mem_append]
            exact Or.inr hi
    · next hne =>
      obtain ⟨hd1, hd2⟩ := ih w t last adv r w' h
      have hsid : streamIds s = [] := by
        unfold streamIds
        rcases hab : as_bulk s with _ | parts
        · rfl
        · rcases parts with _ | ⟨p1, ps⟩
          · rfl
          · rcases ps with _ | ⟨p2, ps2⟩
            · rfl
            · rcases ps2 with _ | ⟨p3, ps3⟩
              · exact absurd hab (hne p1 p2)
              · rfl
      constructor
      · rcases hd1 with h1 | h1
        · exact Or.inl h1
        · refine Or.inr ?_
          simp only [List.map_cons, List.flatten_cons, List.mem_append]
          exact Or.inr h1
      · rcases hd2 with h1 | h1
        · exact Or.inl h1
        · obtain ⟨i, hi, hv⟩ := h1
          refine Or.inr ⟨i, ?_, hv⟩
          simp only [List.map_cons, List.flatten_cons, List.mem_append]
          exact Or.inr hi

theorem opXtrim_store (w : World) (m : String) :
    (opXtrim w m).snd.store = w.store := by
  rcases hf : w.faults with _ | ⟨b, fs⟩
  · simp [opXtrim, popFault, hf, World.event]
  · cases b <;> simp [opXtrim, popFault, hf, World.event]

theorem trim_store (w : World) (sn l : String) (tm : Nat) :
    (trim_stream_minid w sn l tm).snd.store = w.store := by
  unfold trim_stream_minid
  split
  · rfl
  · split
    · rfl
    · split
      · rfl
      · split
        · exact opXtrim_store w l
        · exact opXtrim_store w _

theorem loop_iter_cursor (w : World) (t : Nat) (sn : String) (tm te lc : Nat)
    (last : String) (resp : Except String RValue) (lid : String) (w' : World)
    (h : loop_iter w t sn tm te lc last resp = (Except.ok lid, w')) :
    (lid = last ∨ ∃ v, resp = Except.ok v ∧ lid ∈ respIds v) ∧
    (mapGet w'.store.strings LAST_ID_KEY = mapGet w.store.strings LAST_ID_KEY ∨
     ∃ v, resp = Except.ok v ∧
       ∃ i ∈ respIds v, mapGet w'.store.strings LAST_ID_KEY = some i) := by
  unfold loop_iter at h
  rcases resp with e | v
  · dsimp only at h
    cases h
    exact ⟨Or.inl rfl, Or.inl rfl⟩
  · rcases v with streams | s | i | _ | _
    case ok.array =>
      dsimp only at h
      rcases hps : process_streams w t last false streams with ⟨r1, w1⟩
      rw [hps] at h
      rcases r1 with err | r1
      · simp at h
      · rcases r1 with ⟨lid2, adv, berr⟩
        obtain ⟨hc1, hc2⟩ :=
          process_streams_cursor streams w t last false (lid2, adv, berr) w1 hps
        dsimp only at h
        have hfront : (lid = lid2 ∧
            mapGet w'.store.strings LAST_ID_KEY
              = mapGet w1.store.strings LAST_ID_KEY) := by
          split at h
          · rcases htr : trim_stream_minid
                (if berr = true then
                    ((if adv = true then w1 else w1.event (Event.sleep 25))).event
                      (Event.sleep RETRY_BACKOFF_ON_ERROR_MS)
                  else (if adv = true then w1 else w1.event (Event.sleep 25)))
                sn lid2 tm with ⟨rt, wt⟩
            have hst := trim_store
              (if berr = true then
                  ((if adv = true then w1 else w1.event (Event.sleep 25))).event
                    (Event.sleep RETRY_BACKOFF_ON_ERROR_MS)
                else (if adv = true then w1 else w1.event (Event.sleep 25)))
              sn lid2 tm
            rw [htr] at h hst
            have hst2 : wt.store = w1.store := by
              rw [hst]
              cases adv <;> cases berr <;> rfl
            rcases rt with e2 | u2
            · cases h
              exact ⟨rfl, congrArg (fun s => mapGet s.strings LAST_ID_KEY) hst2⟩
            · cases h
              exact ⟨rfl, congrArg (fun s => mapGet s.strings LAST_ID_KEY) hst2⟩
          · cases h
            refine ⟨rfl, ?_⟩
            have : (if berr = true then
                ((if adv = true then w1 else w1.event (Event.sleep 25))).event
                  (Event.sleep RETRY_BACKOFF_ON_ERROR_MS)
              else (if adv = true then w1 else w1.event (Event.sleep 25))).store
                = w1.store := by
              cases adv <;> cases berr <;> rfl
            exact congrArg (fun s => mapGet s.strings LAST_ID_KEY) this
        obtain ⟨hlid, hw⟩ := hfront
        subst hlid
        constructor
        · rcases hc1 with h1 | h1
          · exact Or.inl h1
          · exact Or.inr ⟨RValue.array streams, rfl, h1⟩
        · rcases hc2 with h1 | h1
          · exact Or.inl (hw.trans h1)
          · obtain ⟨i, hi, hv2⟩ := h1
            exact Or.inr ⟨RValue.array streams, rfl,
              ⟨i, hi, hw.trans hv2⟩⟩
    all_goals
      dsimp only at h
      refine ?_
      constructor
      · split at h
        · rcases htr : trim_stream_minid (w.event (Event.sleep 10)) sn last tm
            with ⟨rt, wt⟩
          rw [htr] at h
          rcases rt with e2 | u2 <;> cases h <;> exact Or.inl rfl
        · cases h
          exact Or.inl rfl
      · split at h
        · rcases htr : trim_stream_minid (w.event (Event.sleep 10)) sn last tm
            with ⟨rt, wt⟩
          have hst := trim_store (w.event (Event.sleep 10)) sn last tm
          rw [htr] at h hst
          rcases rt with e2 | u2 <;> cases h <;>
            exact Or.inl (congrArg (fun s => mapGet s.strings LAST_ID_KEY) hst)
        · cases h
          exact Or.inl rfl

/-- **C5** (invariants, confirmed).  Across one main-loop iteration the
cursor is only ever assigned the ID of an entry extracted from the XREAD
response (`respIds`); under the broker's contract that every returned ID
is strictly after the cursor the XREAD was issued with, the in-memory
cursor satisfies `idLe last lid`, and the persisted cursor key still
holds a value `c2` with `idLe last c2` — two sequential loads never
observe the cursor moving backward. -/
theorem cursor_never_moves_backward (w : World) (t : Nat) (sn : String)
    (tm te lc : Nat) (last : String) (resp : Except String RValue)
    (lid : String) (w' : World)
    (h : loop_iter w t sn tm te lc last resp = (Except.ok lid, w'))
    (hresp : ∀ v, resp = Except.ok v → ∀ i ∈ respIds v, idLt last i)
    (hpers : mapGet w.store.strings LAST_ID_KEY = some last) :
    idLe last lid ∧
    ∃ c2, mapGet w'.store.strings LAST_ID_KEY = some c2 ∧ idLe last c2 := by
  obtain ⟨h1, h2⟩ := loop_iter_cursor w t sn tm te lc last resp lid w' h
  constructor
  · rcases h1 with h1 | ⟨v, hv, hmem⟩
    · rw [h1]
      exact idLe_refl last
    · exact idLe_of_idLt (hresp v hv lid hmem)
  · rcases h2 with h2 | ⟨v, hv, i, hi, hveq⟩
    · exact ⟨last, h2.trans hpers, idLe_refl last⟩
    · exact ⟨i, hveq, idLe_of_idLt (hresp v hv i hi)⟩

/-- Witness for C5: from cursor `"1-0"`, a response carrying the
(already-completed) entry `"2-0"`; the iteration moves the in-memory and
persisted cursor forward to `"2-0"`. -/
theorem cursor_never_moves_backward_witness :
    idLe "1-0" "2-0" ∧
    ∃ c2, mapGet (loop_iter
        { store := ⟨[("videogen:last_id", "1-0")], [],
            [("videogen:completed", "2-0")]⟩, faults := [], childq := [],
          events := [], nowMs := 0 }
        600 "videogen:jobs" 120 80 1 "1-0"
        (Except.ok (RValue.array [RValue.array [RValue.data "videogen:jobs",
          RValue.array [RValue.array [RValue.data "2-0",
            RValue.array [RValue.data "id", RValue.data "jobZ"]]]]]))).snd.store.strings
        LAST_ID_KEY = some c2 ∧ idLe "1-0" c2 :=
  cursor_never_moves_backward
    { store := ⟨[("videogen:last_id", "1-0")], [],
        [("videogen:completed", "2-0")]⟩, faults := [], childq := [],
      events := [], nowMs := 0 }
    600 "videogen:jobs" 120 80 1 "1-0"
    (Except.ok (RValue.array [RValue.array [RValue.data "videogen:jobs",
      RValue.array [RValue.array [RValue.data "2-0",
        RValue.array [RValue.data "id", RValue.data "jobZ"]]]]]))
    "2-0" _
    rfl
    (by
      intro v hv i hi
      injection hv with hveq
      subst hveq
      have hr : respIds (RValue.array [RValue.array [RValue.data "videogen:jobs",
          RValue.array [RValue.array [RValue.data "2-0",
            RValue.array [RValue.data "id", RValue.data "jobZ"]]]]]) = ["2-0"] := by
        decide
      rw [hr] at hi
      simp at hi
      subst hi
      decide)
    (by decide)

/-- **C8** (invariants, confirmed).  A decoded batch entry whose extracted
`entry_id` is empty is dropped with only a malformed log: processing the
batch `bad :: rest` is literally processing `rest` from the same cursor
(drop-without-advance is local to the entry).  Consequently, when the
remaining entries advance the cursor to `lid`, and the dropped entry's
stream position `p` is at or below `lid` (it preceded the later entry in
the stream), `p` is not strictly after `lid`: an XREAD strictly after the
new cursor never redelivers it — the missing-ID entry is permanently
skipped. -/
theorem missing_id_entry_skipped_forever (w : World) (t : Nat) (last : String)
    (adv : Bool) (bad : RValue) (ev : List RValue) (rest : List RValue)
    (p lid : String) (a berr : Bool) (w' : World)
    (hb : as_bulk bad = some ev) (hid : idOfEv ev = "")
    (hrest : process_entries (w.logLine "[entry.malformed] missing id") t last
        adv rest = (Except.ok (lid, a, berr), w'))
    (hpos : idLe p lid) :
    process_entries w t last adv (bad :: rest) = (Except.ok (lid, a, berr), w') ∧
    ¬ idLt lid p := by
  have hpe : process_entry w t last bad =
      (Except.ok (last, false, false), w.logLine "[entry.malformed] missing id") := by
    simp [process_entry, hb, hid, isEmpty_empty_str]
  constructor
  · simp [process_entries, hpe, hrest]
  · exact not_idLt_of_idLe hpos

/-- Witness for C8: batch `[missing-ID entry, completed entry 3-0]` from
cursor `1-0`; the batch ends at cursor `3-0` and the dropped entry's
position `2-5` is not redeliverable. -/
theorem missing_id_entry_skipped_forever_witness :
    process_entries
        { store := ⟨[], [], [("videogen:completed", "3-0")]⟩, faults := [],
          childq := [], events := [], nowMs := 0 }
        600 "1-0" false
        [RValue.array [RValue.data ""],
         RValue.array [RValue.data "3-0",
           RValue.array [RValue.data "id", RValue.data "jobG"]]]
      = (Except.ok ("3-0", true, false),
          (process_entries
            ((World.mk ⟨[], [], [("videogen:completed", "3-0")]⟩ [] [] [] 0).logLine
              "[entry.malformed] missing id")
            600 "1-0" false
            [RValue.array [RValue.data "3-0",
              RValue.array [RValue.data "id", RValue.data "jobG"]]]).snd) ∧
    ¬ idLt "3-0" "2-5" :=
  missing_id_entry_skipped_forever
    { store := ⟨[], [], [("videogen:completed", "3-0")]⟩, faults := [],
      childq := [], events := [], nowMs := 0 }
    600 "1-0" false (RValue.array [RValue.data ""]) [RValue.data ""]
    [RValue.array [RValue.data "3-0",
      RValue.array [RValue.data "id", RValue.data "jobG"]]]
    "2-5" "3-0" true false _
    rfl (by decide) rfl (by decide)
